import Mathlib

/-!
Verification of the Quarto game engine (board model, heuristic AI, MCTS search).

The definitions below are a shallow embedding of the repository's TypeScript
source:

* `src/utils/gameUtils.ts` — pieces, `getPieceId`, `arePiecesEqual`,
  `haveSameAttribute`, `checkWinCondition`, `isBoardFull`, `getWinningLine`;
* `src/ai.ts` — the heuristic AI (`getEmptyPositions`, `getRandomElement`,
  `getRandomChance`, `canPieceLeadToWin`, `makeAIPlacement`,
  `makeAIPieceSelection`, `makeAIMove`);
* `src/ai/mcts.ts` (first variant) — `GameState`, `Move`, `MCTSNode`
  (constructor, `getLegalMoves`, `isFullyExpanded`, `isTerminal`, `ucb1`,
  `selectBestChild`, `expand`, `applyMove`, `backpropagate`) and
  `MCTSSearch` (`search`, `select`, `simulate`, `sortMoves`, the sort
  strategies, `shuffleArray`, `getLegalMoves`, `applyMoveToState`).

JavaScript `Math.random()` is modelled as an explicit stream `ℕ → ℚ` of
draws together with the index of the next unread draw; every function that
consumes randomness returns the updated index, reproducing the exact order
in which the source reads the ambient generator.  Mutable `MCTSNode` trees
become a functional tree type; the parent pointers used by `backpropagate`
become the spine of a structural recursion.
-/

/-- The four binary piece attributes, `'tall' | 'short'` in the source. -/
inductive Height where
  | tall
  | short
deriving DecidableEq, Repr, Fintype

/-- Attribute `'light' | 'dark'`. -/
inductive Color where
  | light
  | dark
deriving DecidableEq, Repr, Fintype

/-- Attribute `'square' | 'round'`. -/
inductive Shape where
  | square
  | round
deriving DecidableEq, Repr, Fintype

/-- Attribute `'solid' | 'hollow'`. -/
inductive TopF where
  | solid
  | hollow
deriving DecidableEq, Repr, Fintype

/-- `PieceAttributes` from `components/Piece.tsx`: a piece is the tuple of its
four binary attributes. -/
structure PieceAttributes where
  height : Height
  color : Color
  shape : Shape
  top : TopF
deriving DecidableEq, Repr, Fintype

/-- String form of each attribute, as used by `getPieceId`. -/
def Height.str : Height → String
  | .tall => "tall"
  | .short => "short"

def Color.str : Color → String
  | .light => "light"
  | .dark => "dark"

def Shape.str : Shape → String
  | .square => "square"
  | .round => "round"

def TopF.str : TopF → String
  | .solid => "solid"
  | .hollow => "hollow"

/-- `getPieceId` from gameUtils: `height-color-shape-top`. -/
def getPieceId (piece : PieceAttributes) : String :=
  piece.height.str ++ "-" ++ piece.color.str ++ "-" ++ piece.shape.str ++ "-" ++ piece.top.str

/-- `arePiecesEqual` from gameUtils: compare the id strings. -/
def arePiecesEqual (piece1 piece2 : PieceAttributes) : Bool :=
  getPieceId piece1 == getPieceId piece2

/-- `generateAllPieces` from gameUtils: all 16 attribute combinations, in
nested-loop order heights × colors × shapes × tops. -/
def generateAllPieces : List PieceAttributes :=
  [Height.tall, Height.short].flatMap (fun height =>
    [Color.light, Color.dark].flatMap (fun color =>
      [Shape.square, Shape.round].flatMap (fun shape =>
        [TopF.solid, TopF.hollow].map (fun t =>
          { height := height, color := color, shape := shape, top := t }))))

theorem arePiecesEqual_iff (piece1 piece2 : PieceAttributes) :
    arePiecesEqual piece1 piece2 = true ↔ piece1 = piece2 := by
  revert piece1 piece2; decide

/-- The board: a 4×4 grid of optional pieces, `(PieceAttributes | null)[][]`
in the source, row major. -/
abbrev Board : Type := List (List (Option PieceAttributes))

/-- Read `board[row][col]`; out-of-range reads give `none` (JS `undefined`,
which is falsy exactly like `null` everywhere the source tests a cell). -/
def cellAt (board : Board) (row col : Nat) : Option PieceAttributes :=
  (board.getD row []).getD col none

/-- Write one cell of a copied board: `newBoard = board.map(r => [...r]);
newBoard[row][col] = v`. -/
def setCell (board : Board) (row col : Nat) (v : Option PieceAttributes) : Board :=
  board.set row ((board.getD row []).set col v)

/-- A well-formed board has 4 rows of 4 cells. -/
def BoardWF (board : Board) : Prop :=
  board.length = 4 ∧ ∀ row ∈ board, row.length = 4

instance (board : Board) : Decidable (BoardWF board) := by
  unfold BoardWF; exact instDecidableAnd

/-- `haveSameAttribute` from gameUtils: exactly four pieces that all agree on
height, or all on color, or all on shape, or all on top. -/
def haveSameAttribute (pieces : List PieceAttributes) : Bool :=
  if pieces.length ≠ 4 then false
  else
    match pieces with
    | [] => false
    | p0 :: _ =>
      pieces.all (fun p => p.height == p0.height) ||
      pieces.all (fun p => p.color == p0.color) ||
      pieces.all (fun p => p.shape == p0.shape) ||
      pieces.all (fun p => p.top == p0.top)

/-- The non-null pieces of row `row`: `board[row].filter(p => p !== null)`. -/
def rowPieces (board : Board) (row : Nat) : List PieceAttributes :=
  (board.getD row []).filterMap id

/-- The non-null pieces of column `col`, collected top to bottom. -/
def colPieces (board : Board) (col : Nat) : List PieceAttributes :=
  (List.range 4).filterMap (fun row => cellAt board row col)

/-- The non-null pieces of the main diagonal. -/
def mainDiagPieces (board : Board) : List PieceAttributes :=
  (List.range 4).filterMap (fun i => cellAt board i i)

/-- The non-null pieces of the anti-diagonal. -/
def antiDiagPieces (board : Board) : List PieceAttributes :=
  (List.range 4).filterMap (fun i => cellAt board i (3 - i))

/-- One row's win test inside `checkWinCondition`. -/
def rowWins (board : Board) (row : Nat) : Bool :=
  (rowPieces board row).length == 4 && haveSameAttribute (rowPieces board row)

/-- One column's win test inside `checkWinCondition`. -/
def colWins (board : Board) (col : Nat) : Bool :=
  (colPieces board col).length == 4 && haveSameAttribute (colPieces board col)

/-- The main-diagonal win test inside `checkWinCondition`. -/
def mainDiagWins (board : Board) : Bool :=
  (mainDiagPieces board).length == 4 && haveSameAttribute (mainDiagPieces board)

/-- The anti-diagonal win test inside `checkWinCondition`. -/
def antiDiagWins (board : Board) : Bool :=
  (antiDiagPieces board).length == 4 && haveSameAttribute (antiDiagPieces board)

/-- `checkWinCondition` from gameUtils: rows, then columns, then the main
diagonal, then the anti-diagonal; any hit returns `true`. -/
def checkWinCondition (board : Board) : Bool :=
  (List.range 4).any (fun row => rowWins board row) ||
  (List.range 4).any (fun col => colWins board col) ||
  mainDiagWins board ||
  antiDiagWins board

/-- `isBoardFull` from gameUtils: every cell of every row is non-null. -/
def isBoardFull (board : Board) : Bool :=
  board.all (fun row => row.all (fun c => c.isSome))

/-- `getWinningLine` from gameUtils: the same scan as `checkWinCondition`,
returning the coordinates of the first matching line. -/
def getWinningLine (board : Board) : Option (List (Nat × Nat)) :=
  match (List.range 4).find? (fun row => rowWins board row) with
  | some row => some [(row, 0), (row, 1), (row, 2), (row, 3)]
  | none =>
    match (List.range 4).find? (fun col => colWins board col) with
    | some col => some [(0, col), (1, col), (2, col), (3, col)]
    | none =>
      if mainDiagWins board then some [(0, 0), (1, 1), (2, 2), (3, 3)]
      else if antiDiagWins board then some [(0, 3), (1, 2), (2, 1), (3, 0)]
      else none

/-- Spec-side notion (§4.1, §8): four pieces share at least one attribute —
all the same height, OR all the same color, OR all the same shape, OR all
the same top. -/
def specSharesAttribute (p0 p1 p2 p3 : PieceAttributes) : Prop :=
  (p1.height = p0.height ∧ p2.height = p0.height ∧ p3.height = p0.height) ∨
  (p1.color = p0.color ∧ p2.color = p0.color ∧ p3.color = p0.color) ∨
  (p1.shape = p0.shape ∧ p2.shape = p0.shape ∧ p3.shape = p0.shape) ∨
  (p1.top = p0.top ∧ p2.top = p0.top ∧ p3.top = p0.top)

instance (p0 p1 p2 p3 : PieceAttributes) : Decidable (specSharesAttribute p0 p1 p2 p3) := by
  unfold specSharesAttribute; infer_instance

/-- Spec-side: the 10 lines of the board in the spec's scan order — rows 0–3,
columns 0–3, the main diagonal, the anti-diagonal — each as its four
coordinates. -/
def specLines : List (List (Nat × Nat)) :=
  (List.range 4).map (fun row => [(row, 0), (row, 1), (row, 2), (row, 3)]) ++
  (List.range 4).map (fun col => [(0, col), (1, col), (2, col), (3, col)]) ++
  [[(0, 0), (1, 1), (2, 2), (3, 3)]] ++
  [[(0, 3), (1, 2), (2, 1), (3, 0)]]

/-- Spec-side win condition for one line: all 4 of its cells occupied and the
four pieces sharing at least one attribute. -/
def specLineWin (board : Board) (line : List (Nat × Nat)) : Prop :=
  ∃ p0 p1 p2 p3,
    (line.map (fun pos => cellAt board pos.1 pos.2)) = [some p0, some p1, some p2, some p3] ∧
    specSharesAttribute p0 p1 p2 p3

instance (board : Board) (line : List (Nat × Nat)) : Decidable (specLineWin board line) := by
  unfold specLineWin
  refine decidable_of_iff
    (∃ p0 p1 p2 p3,
      (line.map (fun pos => cellAt board pos.1 pos.2)) = [some p0, some p1, some p2, some p3] ∧
      specSharesAttribute p0 p1 p2 p3) Iff.rfl

/-- Spec-side win condition for a board: some line of the 10 wins. -/
def specWin (board : Board) : Prop :=
  ∃ line ∈ specLines, specLineWin board line

instance (board : Board) : Decidable (specWin board) := by
  unfold specWin; infer_instance


lemma haveSameAttribute_quad (p0 p1 p2 p3 : PieceAttributes) :
    haveSameAttribute [p0, p1, p2, p3] = true ↔ specSharesAttribute p0 p1 p2 p3 := by
  show (if ([p0, p1, p2, p3] : List PieceAttributes).length ≠ 4 then false
    else
      ([p0, p1, p2, p3].all (fun p => p.height == p0.height) ||
       [p0, p1, p2, p3].all (fun p => p.color == p0.color) ||
       [p0, p1, p2, p3].all (fun p => p.shape == p0.shape) ||
       [p0, p1, p2, p3].all (fun p => p.top == p0.top))) = true ↔ _
  rw [if_neg (by simp)]
  simp only [List.all_cons, List.all_nil, Bool.and_true, Bool.or_eq_true, Bool.and_eq_true,
    beq_iff_eq, beq_self_eq_true, true_and, specSharesAttribute]
  tauto

lemma quadWins_iff (o0 o1 o2 o3 : Option PieceAttributes) :
    (((List.filterMap id [o0, o1, o2, o3]).length == 4 &&
        haveSameAttribute (List.filterMap id [o0, o1, o2, o3])) = true) ↔
      ∃ p0 p1 p2 p3,
        [o0, o1, o2, o3] = [some p0, some p1, some p2, some p3] ∧
        specSharesAttribute p0 p1 p2 p3 := by
  cases o0 <;> cases o1 <;> cases o2 <;> cases o3 <;>
    simp [List.filterMap_cons, haveSameAttribute_quad]
    <;> exact ⟨fun h => ⟨_, _, _, _, ⟨rfl, rfl, rfl, rfl⟩, h⟩,
      fun ⟨p0, p1, p2, p3, ⟨e0, e1, e2, e3⟩, h⟩ => by subst e0; subst e1; subst e2; subst e3; exact h⟩

lemma length_four_destruct {α} {l : List α} (h : l.length = 4) :
    ∃ a b c d, l = [a, b, c, d] := by
  rcases l with _ | ⟨a, _ | ⟨b, _ | ⟨c, _ | ⟨d, _ | ⟨e, t⟩⟩⟩⟩⟩ <;>
    first
      | exact ⟨_, _, _, _, rfl⟩
      | (simp only [List.length_cons, List.length_nil] at h; omega)

lemma filterMap_four {α β} (f : α → Option β) (a b c d : α) :
    List.filterMap f [a, b, c, d] = List.filterMap id [f a, f b, f c, f d] := by
  cases h1 : f a <;> cases h2 : f b <;> cases h3 : f c <;> cases h4 : f d <;>
    simp [List.filterMap_cons, h1, h2, h3, h4]

lemma row_eq_cells (board : Board) (hwf : BoardWF board) (row : Nat) (hrow : row < 4) :
    board.getD row [] =
      [cellAt board row 0, cellAt board row 1, cellAt board row 2, cellAt board row 3] := by
  have hlt : row < board.length := by rw [hwf.1]; exact hrow
  have hmem : board.getD row [] ∈ board := by
    rw [List.getD_eq_getElem board [] hlt]
    exact List.getElem_mem hlt
  have hlen : (board.getD row []).length = 4 := hwf.2 _ hmem
  obtain ⟨a, b, c, d, he⟩ := length_four_destruct hlen
  unfold cellAt
  rw [he]
  rfl

lemma rowWins_iff (board : Board) (hwf : BoardWF board) (row : Nat) (hrow : row < 4) :
    rowWins board row = true ↔
      specLineWin board [(row, 0), (row, 1), (row, 2), (row, 3)] := by
  unfold rowWins rowPieces specLineWin
  rw [row_eq_cells board hwf row hrow]
  simpa using
    quadWins_iff (cellAt board row 0) (cellAt board row 1) (cellAt board row 2)
      (cellAt board row 3)

lemma colWins_iff (board : Board) (col : Nat) :
    colWins board col = true ↔
      specLineWin board [(0, col), (1, col), (2, col), (3, col)] := by
  unfold colWins colPieces specLineWin
  rw [show (List.range 4) = [0, 1, 2, 3] from rfl, filterMap_four]
  simpa using
    quadWins_iff (cellAt board 0 col) (cellAt board 1 col) (cellAt board 2 col)
      (cellAt board 3 col)

lemma mainDiagWins_iff (board : Board) :
    mainDiagWins board = true ↔
      specLineWin board [(0, 0), (1, 1), (2, 2), (3, 3)] := by
  unfold mainDiagWins mainDiagPieces specLineWin
  rw [show (List.range 4) = [0, 1, 2, 3] from rfl, filterMap_four]
  simpa using
    quadWins_iff (cellAt board 0 0) (cellAt board 1 1) (cellAt board 2 2) (cellAt board 3 3)

lemma antiDiagWins_iff (board : Board) :
    antiDiagWins board = true ↔
      specLineWin board [(0, 3), (1, 2), (2, 1), (3, 0)] := by
  unfold antiDiagWins antiDiagPieces specLineWin
  rw [show (List.range 4) = [0, 1, 2, 3] from rfl, filterMap_four]
  simpa using
    quadWins_iff (cellAt board 0 3) (cellAt board 1 2) (cellAt board 2 1) (cellAt board 3 0)

lemma checkWin_disj (board : Board) :
    checkWinCondition board = true ↔
      (∃ row < 4, rowWins board row = true) ∨ (∃ col < 4, colWins board col = true) ∨
        mainDiagWins board = true ∨ antiDiagWins board = true := by
  simp [checkWinCondition, List.any_eq_true, List.mem_range, or_assoc]

lemma rowLine_mem (row : Nat) (h : row < 4) :
    [(row, 0), (row, 1), (row, 2), (row, 3)] ∈ specLines := by
  unfold specLines
  exact List.mem_append_left _ (List.mem_append_left _ (List.mem_append_left _
    (List.mem_map_of_mem _ (List.mem_range.mpr h))))

lemma colLine_mem (col : Nat) (h : col < 4) :
    [(0, col), (1, col), (2, col), (3, col)] ∈ specLines := by
  unfold specLines
  exact List.mem_append_left _ (List.mem_append_left _ (List.mem_append_right _
    (List.mem_map_of_mem _ (List.mem_range.mpr h))))

lemma mainDiagLine_mem : [(0, 0), (1, 1), (2, 2), (3, 3)] ∈ specLines := by
  unfold specLines
  exact List.mem_append_left _ (List.mem_append_right _ (List.mem_singleton.mpr rfl))

lemma antiDiagLine_mem : [(0, 3), (1, 2), (2, 1), (3, 0)] ∈ specLines := by
  unfold specLines
  exact List.mem_append_right _ (List.mem_singleton.mpr rfl)

theorem checkWin_iff_spec (board : Board) (hwf : BoardWF board) :
    checkWinCondition board = true ↔ specWin board := by
  rw [checkWin_disj]
  constructor
  · rintro (⟨row, hrow, hw⟩ | ⟨col, hcol, hw⟩ | hw | hw)
    · exact ⟨_, rowLine_mem row hrow, (rowWins_iff board hwf row hrow).1 hw⟩
    · exact ⟨_, colLine_mem col hcol, (colWins_iff board col).1 hw⟩
    · exact ⟨_, mainDiagLine_mem, (mainDiagWins_iff board).1 hw⟩
    · exact ⟨_, antiDiagLine_mem, (antiDiagWins_iff board).1 hw⟩
  · rintro ⟨line, hmem, hwin⟩
    simp only [specLines, List.mem_append, List.mem_map, List.mem_range,
      List.mem_singleton] at hmem
    rcases hmem with (((⟨row, hrow, rfl⟩ | ⟨col, hcol, rfl⟩) | rfl) | rfl)
    · exact Or.inl ⟨row, hrow, (rowWins_iff board hwf row hrow).2 hwin⟩
    · exact Or.inr (Or.inl ⟨col, hcol, (colWins_iff board col).2 hwin⟩)
    · exact Or.inr (Or.inr (Or.inl ((mainDiagWins_iff board).2 hwin)))
    · exact Or.inr (Or.inr (Or.inr ((antiDiagWins_iff board).2 hwin)))

lemma bool_eq_decide {b : Bool} {P : Prop} [Decidable P] (h : b = true ↔ P) : b = decide P := by
  cases b
  · have hnp : ¬ P := fun hp => by simpa using h.mpr hp
    simp [hnp]
  · simp [h.mp rfl]

lemma find?_congr {α} {p q : α → Bool} (l : List α) (h : ∀ a ∈ l, p a = q a) :
    l.find? p = l.find? q := by
  induction l with
  | nil => rfl
  | cons a t ih =>
    have ha := h a (List.mem_cons_self a t)
    rw [List.find?_cons, List.find?_cons, ha]
    cases q a
    · exact ih (fun x hx => h x (List.mem_cons_of_mem a hx))
    · rfl

theorem getWinningLine_eq_find (board : Board) (hwf : BoardWF board) :
    getWinningLine board =
      specLines.find? (fun line => decide (specLineWin board line)) := by
  have hrow : (List.range 4).find?
        ((fun line => decide (specLineWin board line)) ∘
          fun row => [(row, 0), (row, 1), (row, 2), (row, 3)]) =
      (List.range 4).find? (rowWins board) := by
    refine find?_congr _ (fun row hrow => ?_)
    exact (bool_eq_decide (rowWins_iff board hwf row (List.mem_range.mp hrow))).symm
  have hcol : (List.range 4).find?
        ((fun line => decide (specLineWin board line)) ∘
          fun col => [(0, col), (1, col), (2, col), (3, col)]) =
      (List.range 4).find? (colWins board) := by
    refine find?_congr _ (fun col hcol => ?_)
    exact (bool_eq_decide (colWins_iff board col)).symm
  have hd : decide (specLineWin board [(0, 0), (1, 1), (2, 2), (3, 3)]) = mainDiagWins board :=
    (bool_eq_decide (mainDiagWins_iff board)).symm
  have ha : decide (specLineWin board [(0, 3), (1, 2), (2, 1), (3, 0)]) = antiDiagWins board :=
    (bool_eq_decide (antiDiagWins_iff board)).symm
  unfold specLines getWinningLine
  rw [List.find?_append, List.find?_append, List.find?_append,
    List.find?_map, List.find?_map, List.find?_singleton, List.find?_singleton,
    hrow, hcol, hd, ha]
  cases hr : (List.range 4).find? (rowWins board) with
  | some row => simp
  | none =>
    cases hc : (List.range 4).find? (colWins board) with
    | some col => simp
    | none =>
      cases hm : mainDiagWins board <;> cases hab : antiDiagWins board <;> simp

theorem getWinningLine_isSome_eq (board : Board) (hwf : BoardWF board) :
    (getWinningLine board).isSome = checkWinCondition board := by
  have h1 : (getWinningLine board).isSome = true ↔ specWin board := by
    rw [getWinningLine_eq_find board hwf]
    simp [List.find?_isSome, specWin]
  exact (bool_eq_decide h1).trans (bool_eq_decide (checkWin_iff_spec board hwf)).symm

/-- AI difficulty levels from `ai.ts`. -/
inductive Difficulty where
  | easy
  | normal
  | hard
  | nightmare
deriving DecidableEq, Repr

/-- `BoardPosition` from `ai.ts` as a `(row, col)` pair. -/
abbrev BoardPosition : Type := Nat × Nat

/-- `AIInput` from `ai.ts` (the `enableLogging` flag only prints and is
dropped; `difficulty` is kept explicit, `'normal'` being the source's
default). -/
structure AIInput where
  board : Board
  pieceToPlace : Option PieceAttributes
  availablePieces : List PieceAttributes
  difficulty : Difficulty
deriving DecidableEq, Repr

/-- `AIMove` from `ai.ts`. -/
structure AIMove where
  placement : Option BoardPosition
  pieceToGive : Option PieceAttributes
deriving DecidableEq, Repr

/-- A random source: the stream of values produced by successive
`Math.random()` calls.  `ValidRng` says every draw lies in `[0, 1)`. -/
def ValidRng (rng : Nat → ℚ) : Prop :=
  ∀ i, 0 ≤ rng i ∧ rng i < 1

/-- The all-zero random stream. -/
def rngZero : Nat → ℚ := fun _ => 0

/-- `getEmptyPositions` from `ai.ts`: scan rows then columns collecting the
coordinates of null cells. -/
def getEmptyPositions (board : Board) : List BoardPosition :=
  (List.range 4).flatMap (fun row =>
    (List.range 4).filterMap (fun col =>
      if cellAt board row col = none then some (row, col) else none))

/-- `getRandomElement` from `ai.ts`: `array[Math.floor(Math.random() *
array.length)]`, with the draw `q` passed explicitly.  `none` models the
out-of-range (JS `undefined`) read on an empty array. -/
def getRandomElement {α} (array : List α) (q : ℚ) : Option α :=
  array[(⌊q * array.length⌋).toNat]?

/-- `getRandomChance` from `ai.ts`.  Note the source really returns `0` for
`'hard'` (its comment claims 10%). -/
def getRandomChance (difficulty : Difficulty) : ℚ :=
  match difficulty with
  | .easy => 6 / 10
  | .normal => 3 / 10
  | .hard => 0
  | .nightmare => 0

/-- `canPieceLeadToWin` from `ai.ts`: the piece completes a winning line on
some currently empty cell. -/
def canPieceLeadToWin (piece : PieceAttributes) (board : Board) : Bool :=
  (getEmptyPositions board).any (fun position =>
    checkWinCondition (setCell board position.1 position.2 (some piece)))

/-- The per-difficulty `getMinSafePieces` threshold inside `makeAIPlacement`. -/
def getMinSafePieces (difficulty : Difficulty) : Nat :=
  match difficulty with
  | .easy => 2
  | .normal => 2
  | .hard => 3
  | .nightmare => 8

/-- The safe-piece count of a candidate placement: how many available pieces
could still be given without letting the opponent win on the board as it
would be after this placement. -/
def safePiecesCount (input : AIInput) (piece : PieceAttributes) (position : BoardPosition) : Nat :=
  (input.availablePieces.filter (fun p =>
    !canPieceLeadToWin p (setCell input.board position.1 position.2 (some piece)))).length

/-- `makeAIPlacement` from `ai.ts`.  Returns the chosen cell and the index of
the next unread random draw.  The win-check skip draw is only consumed for
`'easy'` (`difficulty === 'easy' && Math.random() < 0.1` short-circuits). -/
def makeAIPlacement (input : AIInput) (rng : Nat → ℚ) (k : Nat) :
    Option BoardPosition × Nat :=
  match input.pieceToPlace with
  | none => (none, k)
  | some pieceToPlace =>
    let emptyPositions := getEmptyPositions input.board
    if emptyPositions.length = 0 then (none, k)
    else
      let skipState : Bool × Nat :=
        if input.difficulty = .easy then (decide (rng k < 1 / 10), k + 1) else (false, k)
      let shouldSkipWinCheck := skipState.1
      let k1 := skipState.2
      let winningPos :=
        if shouldSkipWinCheck then none
        else emptyPositions.find? (fun position =>
          checkWinCondition (setCell input.board position.1 position.2 (some pieceToPlace)))
      match winningPos with
      | some position => (some position, k1)
      | none =>
        if rng k1 < getRandomChance input.difficulty then
          (getRandomElement emptyPositions (rng (k1 + 1)), k1 + 2)
        else
          let minSafePieces := getMinSafePieces input.difficulty
          let counts := emptyPositions.map (fun position =>
            safePiecesCount input pieceToPlace position)
          let positionsAboveThreshold := emptyPositions.filter (fun position =>
            minSafePieces ≤ safePiecesCount input pieceToPlace position)
          let maxSafePieces := counts.foldl max 0
          let bestPositions := emptyPositions.filter (fun position =>
            safePiecesCount input pieceToPlace position = maxSafePieces)
          if positionsAboveThreshold.length > 0 then
            (getRandomElement positionsAboveThreshold (rng (k1 + 1)), k1 + 2)
          else
            (getRandomElement bestPositions (rng (k1 + 1)), k1 + 2)

/-- `makeAIPieceSelection` from `ai.ts`: random branch, then prefer safe
pieces, falling back to the full available set when every piece is
dangerous. -/
def makeAIPieceSelection (input : AIInput) (rng : Nat → ℚ) (k : Nat) :
    Option PieceAttributes × Nat :=
  if input.availablePieces.length = 0 then (none, k)
  else if rng k < getRandomChance input.difficulty then
    (getRandomElement input.availablePieces (rng (k + 1)), k + 2)
  else
    let safePieces := input.availablePieces.filter (fun piece =>
      !canPieceLeadToWin piece input.board)
    if safePieces.length > 0 then
      (getRandomElement safePieces (rng (k + 1)), k + 2)
    else
      (getRandomElement input.availablePieces (rng (k + 1)), k + 2)

/-- `makeAIMove` from `ai.ts`: place first; a winning placement ends the game
and gives no piece; otherwise select the give on the board updated with the
placement. -/
def makeAIMove (input : AIInput) (rng : Nat → ℚ) (k : Nat) : AIMove × Nat :=
  match makeAIPlacement input rng k, input.pieceToPlace with
  | (some position, k1), some pieceToPlace =>
    if checkWinCondition (setCell input.board position.1 position.2 (some pieceToPlace)) then
      ({ placement := some position, pieceToGive := none }, k1)
    else
      ({ placement := some position,
         pieceToGive := (makeAIPieceSelection { input with
           board := setCell input.board position.1 position.2 (some pieceToPlace) } rng k1).1 },
       (makeAIPieceSelection { input with
           board := setCell input.board position.1 position.2 (some pieceToPlace) } rng k1).2)
  | (placement, k1), _ =>
    ({ placement := placement, pieceToGive := (makeAIPieceSelection input rng k1).1 },
     (makeAIPieceSelection input rng k1).2)

lemma getRandomElement_mem {α} (l : List α) (q : ℚ) (h0 : 0 ≤ q) (h1 : q < 1)
    (hne : l ≠ []) : ∃ a, getRandomElement l q = some a ∧ a ∈ l := by
  have hlen : 0 < l.length := List.length_pos.mpr hne
  have hqn : q * l.length < l.length := by
    calc q * l.length < 1 * l.length :=
          mul_lt_mul_of_pos_right h1 (by exact_mod_cast hlen)
      _ = l.length := one_mul _
  have hfl : ⌊q * (l.length : ℚ)⌋ < (l.length : ℤ) := by
    rw [Int.floor_lt]; exact_mod_cast hqn
  have hidx : (⌊q * (l.length : ℚ)⌋).toNat < l.length := by omega
  refine ⟨l[(⌊q * (l.length : ℚ)⌋).toNat], ?_, List.getElem_mem hidx⟩
  unfold getRandomElement
  exact List.getElem?_eq_getElem hidx

lemma makeAIPieceSelection_spec (input : AIInput) (rng : Nat → ℚ) (k : Nat)
    (hrng : ValidRng rng) (hne : input.availablePieces ≠ []) :
    ∃ p, (makeAIPieceSelection input rng k).1 = some p ∧ p ∈ input.availablePieces ∧
      (¬ rng k < getRandomChance input.difficulty →
        (input.availablePieces.filter (fun piece => !canPieceLeadToWin piece input.board)) ≠ [] →
          p ∈ input.availablePieces.filter (fun piece => !canPieceLeadToWin piece input.board)) := by
  have hlen : ¬ input.availablePieces.length = 0 := by
    simpa [List.length_eq_zero] using hne
  unfold makeAIPieceSelection
  rw [if_neg hlen]
  by_cases hlt : rng k < getRandomChance input.difficulty
  · rw [if_pos hlt]
    obtain ⟨p, hp, hmem⟩ :=
      getRandomElement_mem input.availablePieces (rng (k + 1)) (hrng (k + 1)).1
        (hrng (k + 1)).2 hne
    exact ⟨p, hp, hmem, fun hn => absurd hlt hn⟩
  · rw [if_neg hlt]
    by_cases hsafe :
        (input.availablePieces.filter (fun piece => !canPieceLeadToWin piece input.board)).length > 0
    · rw [if_pos hsafe]
      have hsne : (input.availablePieces.filter (fun piece => !canPieceLeadToWin piece input.board)) ≠ [] := by
        intro h; rw [h] at hsafe; simp at hsafe
      obtain ⟨p, hp, hmem⟩ :=
        getRandomElement_mem _ (rng (k + 1)) (hrng (k + 1)).1 (hrng (k + 1)).2 hsne
      exact ⟨p, hp, List.mem_of_mem_filter hmem, fun _ _ => hmem⟩
    · rw [if_neg hsafe]
      obtain ⟨p, hp, hmem⟩ :=
        getRandomElement_mem input.availablePieces (rng (k + 1)) (hrng (k + 1)).1
          (hrng (k + 1)).2 hne
      refine ⟨p, hp, hmem, fun _ hfne => absurd ?_ hfne⟩
      have : (input.availablePieces.filter (fun piece => !canPieceLeadToWin piece input.board)).length = 0 := by
        omega
      exact List.length_eq_zero.mp this

lemma makeAIPieceSelection_eq_none_iff (input : AIInput) (rng : Nat → ℚ) (k : Nat)
    (hrng : ValidRng rng) :
    (makeAIPieceSelection input rng k).1 = none ↔ input.availablePieces = [] := by
  constructor
  · intro h
    by_contra hne
    obtain ⟨p, hp, -, -⟩ := makeAIPieceSelection_spec input rng k hrng hne
    rw [h] at hp
    cases hp
  · intro h
    unfold makeAIPieceSelection
    simp [h]

lemma makeAIPlacement_none_of_no_piece (input : AIInput) (rng : Nat → ℚ) (k : Nat)
    (h : input.pieceToPlace = none) : makeAIPlacement input rng k = (none, k) := by
  unfold makeAIPlacement
  rw [h]

lemma makeAIMove_give_none_iff (input : AIInput) (rng : Nat → ℚ) (k : Nat)
    (hrng : ValidRng rng) :
    (makeAIMove input rng k).1.pieceToGive = none ↔
      (input.availablePieces = [] ∨
        ∃ position piece, (makeAIMove input rng k).1.placement = some position ∧
          input.pieceToPlace = some piece ∧
          checkWinCondition (setCell input.board position.1 position.2 (some piece)) = true) := by
  unfold makeAIMove
  rcases hres : makeAIPlacement input rng k with ⟨placement, k1⟩
  cases placement with
  | none =>
    cases hpp : input.pieceToPlace with
    | none =>
      simp only []
      rw [makeAIPieceSelection_eq_none_iff input rng _ hrng]
      simp
    | some piece =>
      simp only []
      rw [makeAIPieceSelection_eq_none_iff input rng _ hrng]
      simp
  | some position =>
    cases hpp : input.pieceToPlace with
    | none =>
      simp only []
      rw [makeAIPieceSelection_eq_none_iff input rng _ hrng]
      simp [hpp]
    | some piece =>
      simp only []
      by_cases hwin :
          checkWinCondition (setCell input.board position.1 position.2 (some piece)) = true
      · rw [if_pos hwin]
        simp only []
        constructor
        · intro _
          exact Or.inr ⟨position, piece, rfl, rfl, hwin⟩
        · intro _
          trivial
      · rw [if_neg hwin]
        simp only []
        rw [makeAIPieceSelection_eq_none_iff _ rng _ hrng]
        simp only []
        constructor
        · intro h
          exact Or.inl h
        · rintro (h | ⟨position2, piece2, hplc, hpp2, hwin2⟩)
          · exact h
          · exfalso
            cases hpp2
            cases hplc
            exact hwin hwin2

/-- The two players, `1 | 2` in the source. -/
inductive Player where
  | one
  | two
deriving DecidableEq, Repr

/-- `state.currentPlayer === 1 ? 2 : 1`. -/
def otherPlayer : Player → Player
  | .one => .two
  | .two => .one

/-- `GameState` from `mcts.ts`. -/
structure GameState where
  board : Board
  availablePieces : List PieceAttributes
  stagedPiece : Option PieceAttributes
  currentPlayer : Player
  gameOver : Bool
  winner : Option Player
deriving DecidableEq, Repr

/-- `Move` from `mcts.ts` (first variant): place position and piece to give. -/
structure Move where
  place : Option (Nat × Nat)
  give : Option PieceAttributes
deriving DecidableEq, Repr

/-- `getLegalMoves` from `mcts.ts` (identical in `MCTSNode` and
`MCTSSearch`): staged piece present — every empty cell × every available
piece (or a lone `give: null` move per cell when no pieces remain); no
staged piece — one give-only move per available piece; terminal states have
no moves. -/
def getLegalMoves (state : GameState) : List Move :=
  if state.gameOver then []
  else
    match state.stagedPiece with
    | some _ =>
      (List.range 4).flatMap (fun row =>
        (List.range 4).flatMap (fun col =>
          if cellAt state.board row col = none then
            if state.availablePieces.length > 0 then
              state.availablePieces.map (fun piece =>
                { place := some (row, col), give := some piece })
            else [{ place := some (row, col), give := none }]
          else []))
    | none =>
      state.availablePieces.map (fun piece => { place := none, give := some piece })

/-- `applyMove` from `mcts.ts` (identical to `applyMoveToState`): place the
staged piece, end the game on a win (winner = mover) or a full board (tie),
otherwise stage the given piece, drop it from the available set and switch
players; a give-only first move stages, drops and switches; anything else
returns the cloned state unchanged. -/
def applyMove (state : GameState) (move : Move) : GameState :=
  match move.place, state.stagedPiece with
  | some rc, some staged =>
    if checkWinCondition (setCell state.board rc.1 rc.2 (some staged)) then
      { state with
        board := setCell state.board rc.1 rc.2 (some staged)
        stagedPiece := none
        gameOver := true
        winner := some state.currentPlayer }
    else if isBoardFull (setCell state.board rc.1 rc.2 (some staged)) then
      { state with
        board := setCell state.board rc.1 rc.2 (some staged)
        stagedPiece := none
        gameOver := true
        winner := none }
    else
      match move.give with
      | some give =>
        { state with
          board := setCell state.board rc.1 rc.2 (some staged)
          stagedPiece := some give
          availablePieces := state.availablePieces.filter (fun piece =>
            !arePiecesEqual piece give)
          currentPlayer := otherPlayer state.currentPlayer }
      | none =>
        { state with
          board := setCell state.board rc.1 rc.2 (some staged)
          stagedPiece := none }
  | none, none =>
    match move.give with
    | some give =>
      { state with
        stagedPiece := some give
        availablePieces := state.availablePieces.filter (fun piece =>
          !arePiecesEqual piece give)
        currentPlayer := otherPlayer state.currentPlayer }
    | none => state
  | _, _ => state

instance : Inhabited Move := ⟨⟨none, none⟩⟩

/-- `MCTSNode` from `mcts.ts`: state, the move that produced it, visit and
win accumulators, the untried-move list, and the owned children.  The
parent back-reference of the source becomes the spine of the recursion in
`searchIterate` below. -/
inductive Node where
  | mk (state : GameState) (move : Option Move) (visits : Nat) (wins : ℚ)
      (untriedMoves : List Move) (children : List Node)

def Node.state : Node → GameState
  | .mk s _ _ _ _ _ => s

def Node.move : Node → Option Move
  | .mk _ m _ _ _ _ => m

def Node.visits : Node → Nat
  | .mk _ _ v _ _ _ => v

def Node.wins : Node → ℚ
  | .mk _ _ _ w _ _ => w

def Node.untriedMoves : Node → List Move
  | .mk _ _ _ _ u _ => u

def Node.children : Node → List Node
  | .mk _ _ _ _ _ c => c

/-- The `MCTSNode` constructor: fresh counters, untried moves from
`getLegalMoves`, no children. -/
def Node.new (state : GameState) (move : Option Move) : Node :=
  .mk state move 0 0 (getLegalMoves state) []

/-- `isFullyExpanded`: no untried moves remain. -/
def Node.isFullyExpanded (n : Node) : Bool :=
  n.untriedMoves.length == 0

/-- `isTerminal`: the node's state is game over. -/
def Node.isTerminal (n : Node) : Bool :=
  n.state.gameOver

/-- One `backpropagate` step at a single node: `visits++; wins += result`. -/
def Node.bump (n : Node) (result : ℚ) : Node :=
  .mk n.state n.move (n.visits + 1) (n.wins + result) n.untriedMoves n.children

def Node.withChildren (n : Node) (children : List Node) : Node :=
  .mk n.state n.move n.visits n.wins n.untriedMoves children

/-- `ucb1` from `mcts.ts`: `Infinity` when unvisited, otherwise
`wins/visits + c·sqrt(ln(parentVisits)/visits)`. -/
noncomputable def Node.ucb1 (n : Node) (parentVisits : Nat) (explorationConstant : ℝ) : EReal :=
  if n.visits = 0 then ⊤
  else (((n.wins : ℝ) / (n.visits : ℝ) +
    explorationConstant * Real.sqrt (Real.log (parentVisits : ℝ) / (n.visits : ℝ)) : ℝ) : EReal)

/-- `selectBestChild`'s `reduce`: index of the first child attaining the
maximal UCB1 score (strict `>` keeps the earlier child on ties); `none` on
an empty children list, where the JS `reduce` throws. -/
noncomputable def selectBestChildIdx (parentVisits : Nat) (explorationConstant : ℝ)
    (children : List Node) : Option Nat :=
  match children.enum with
  | [] => none
  | e :: es =>
    some ((es.foldl (fun best child =>
      if child.2.ucb1 parentVisits explorationConstant >
          best.2.ucb1 parentVisits explorationConstant then child else best) e).1)

/-- `Node.expand` from `mcts.ts`: throws on an empty untried-move list;
otherwise pops the LAST untried move (`Array.prototype.pop`), applies it,
and appends the new child.  Returns the new child and the updated node. -/
def Node.expand (n : Node) : Except String (Node × Node) :=
  match n.untriedMoves.getLast? with
  | none => .error "Cannot expand fully expanded node"
  | some move =>
    .ok (Node.new (applyMove n.state move) (some move),
      .mk n.state n.move n.visits n.wins n.untriedMoves.dropLast
        (n.children ++ [Node.new (applyMove n.state move) (some move)]))

/-- `MoveSortStrategy` from `mcts.ts`. -/
inductive MoveSortStrategy where
  | random
  | centerFirst
  | cornersFirst
  | defensive
deriving DecidableEq, Repr

/-- `MCTSConfig` from `mcts.ts` (first variant). -/
structure MCTSConfig where
  maxIterations : Nat
  maxDepth : Nat
  explorationConstant : ℝ
  moveSortStrategy : MoveSortStrategy
  playoutDepth : Nat

/-- `defaultMCTSConfig` from `mcts.ts`. -/
noncomputable def defaultMCTSConfig : MCTSConfig :=
  { maxIterations := 1000, maxDepth := 20, explorationConstant := Real.sqrt 2,
    moveSortStrategy := .centerFirst, playoutDepth := 50 }

/-- `Math.abs(row - 1.5) + Math.abs(col - 1.5)` from `sortMovesCenterFirst`. -/
def centerDistance (pos : Nat × Nat) : ℚ :=
  |(pos.1 : ℚ) - 3 / 2| + |(pos.2 : ℚ) - 3 / 2|

/-- The `sortMovesCenterFirst` comparator as a `≤`-test (`compare(a, b) ≤ 0`):
ascending center distance for place moves, ties (and give-only moves) keep
their relative order.  JS `Array.prototype.sort` is stable, as is
`List.mergeSort`, so for this total preorder both produce the same list. -/
def centerFirstLe (a b : Move) : Bool :=
  match a.place, b.place with
  | some pa, some pb => decide (centerDistance pa ≤ centerDistance pb)
  | _, _ => true

/-- `isCorner` from `sortMovesCornerFirst`. -/
def isCorner (pos : Nat × Nat) : Bool :=
  (pos.1 == 0 || pos.1 == 3) && (pos.2 == 0 || pos.2 == 3)

/-- The `sortMovesCornerFirst` comparator as a `≤`-test: corner placements
rank strictly before non-corner placements, everything else ties. -/
def cornersFirstLe (a b : Move) : Bool :=
  match a.place, b.place with
  | some pa, some pb => !(!isCorner pa && isCorner pb)
  | _, _ => true

/-- `isPieceDangerous` from `mcts.ts`: the piece completes a winning line on
some empty cell of the state's board. -/
def MCTSSearch.isPieceDangerous (piece : PieceAttributes) (state : GameState) : Bool :=
  (getEmptyPositions state.board).any (fun position =>
    checkWinCondition (setCell state.board position.1 position.2 (some piece)))

/-- The `sortMovesDefensive` comparator as a `≤`-test: dangerous gives rank
after safe gives, everything else ties. -/
def defensiveLe (state : GameState) (a b : Move) : Bool :=
  match a.give, b.give with
  | some ga, some gb => !(MCTSSearch.isPieceDangerous ga state
      && !MCTSSearch.isPieceDangerous gb state)
  | _, _ => true

/-- One Fisher–Yates step of `shuffleArray`: swap index `i` with
`j = Math.floor(Math.random() * (i + 1))`, then recurse on `i - 1`. -/
def shuffleGo {α} [Inhabited α] (rng : Nat → ℚ) : List α → Nat → Nat → List α × Nat
  | arr, 0, k => (arr, k)
  | arr, i + 1, k =>
    shuffleGo rng
      ((arr.set (i + 1) (arr.getD ((⌊rng k * ((i + 1 : Nat) + 1 : ℚ)⌋).toNat) default)).set
        ((⌊rng k * ((i + 1 : Nat) + 1 : ℚ)⌋).toNat) (arr.getD (i + 1) default))
      i (k + 1)

/-- `shuffleArray` from `mcts.ts`: Fisher–Yates from the last index down. -/
def shuffleArray {α} [Inhabited α] (rng : Nat → ℚ) (k : Nat) (array : List α) :
    List α × Nat :=
  shuffleGo rng array (array.length - 1) k

/-- Stable insertion of `a` into an already sorted list: `a` goes before the
first strictly greater element and after everything tied with it. -/
def insertOrdered {α} (le : α → α → Bool) (a : α) : List α → List α
  | [] => [a]
  | b :: t => if le a b && !le b a then a :: b :: t else b :: insertOrdered le a t

/-- A stable sort by `le` (insertion sort).  For a consistent comparator —
a total preorder, which every comparator of `sortMoves` is on the
homogeneous move lists the engine builds — every stable sort produces the
same list, so this matches the stable JS `Array.prototype.sort`. -/
def stableSort {α} (le : α → α → Bool) (l : List α) : List α :=
  l.foldl (fun acc a => insertOrdered le a acc) []

/-- `sortMoves` from `mcts.ts` (first variant): dispatch on the configured
strategy; only `random` consumes random draws. -/
def MCTSSearch.sortMoves (config : MCTSConfig) (rng : Nat → ℚ) (k : Nat)
    (moves : List Move) (state : GameState) : List Move × Nat :=
  match config.moveSortStrategy with
  | .centerFirst => (stableSort centerFirstLe moves, k)
  | .cornersFirst => (stableSort cornersFirstLe moves, k)
  | .defensive => (stableSort (defensiveLe state) moves, k)
  | .random => shuffleArray rng k moves

/-- The playout loop of `simulate`: up to `playoutDepth` steps, stopping on a
terminal state or an empty move list; each step sorts the legal moves and
picks `sortedMoves[Math.floor(Math.random() * Math.min(3, length))]`, then
applies it with `applyMoveToState` (the same code as `applyMove`). -/
def MCTSSearch.playoutGo (config : MCTSConfig) (rng : Nat → ℚ) :
    Nat → GameState → Nat → GameState × Nat
  | 0, state, k => (state, k)
  | fuel + 1, state, k =>
    if state.gameOver then (state, k)
    else if (getLegalMoves state).length = 0 then (state, k)
    else
      MCTSSearch.playoutGo config rng fuel
        (applyMove state
          ((MCTSSearch.sortMoves config rng k (getLegalMoves state) state).1.getD
            ((⌊rng (MCTSSearch.sortMoves config rng k (getLegalMoves state) state).2 *
              (min 3 (MCTSSearch.sortMoves config rng k (getLegalMoves state) state).1.length : Nat)⌋).toNat)
            default))
        ((MCTSSearch.sortMoves config rng k (getLegalMoves state) state).2 + 1)

/-- The playout of `MCTSSearch.simulate`, returning the final state and the
next random index. -/
def MCTSSearch.playout (config : MCTSConfig) (rng : Nat → ℚ) (state : GameState)
    (k : Nat) : GameState × Nat :=
  MCTSSearch.playoutGo config rng config.playoutDepth state k

/-- `MCTSSearch.simulate` from `mcts.ts`: run the playout from the given
state, then score the final state against `state.currentPlayer` — the
current player OF THE ARGUMENT STATE (the selected/expanded node), not of
the search root: 1.0 on `winner === state.currentPlayer`, 0.5 on
`winner === null`, else 0.0. -/
def MCTSSearch.simulate (config : MCTSConfig) (rng : Nat → ℚ) (k : Nat)
    (state : GameState) : ℚ × Nat :=
  (if (MCTSSearch.playout config rng state k).1.winner = some state.currentPlayer then 1
   else if (MCTSSearch.playout config rng state k).1.winner = none then 1 / 2
   else 0,
   (MCTSSearch.playout config rng state k).2)

/-- The result of one simulation+backpropagation at the expansion site: the
new child is bumped with the playout result, the expanded parent replaces
its freshly appended child with the bumped one and is bumped itself. -/
def expandStep (config : MCTSConfig) (rng : Nat → ℚ) (k : Nat)
    (child expanded : Node) : Except String (Node × ℚ × Nat) :=
  .ok ((expanded.withChildren (expanded.children.dropLast ++
        [child.bump (MCTSSearch.simulate config rng k child.state).1])).bump
          (MCTSSearch.simulate config rng k child.state).1,
    (MCTSSearch.simulate config rng k child.state).1,
    (MCTSSearch.simulate config rng k child.state).2)

lemma foldl_choice_mem {α} (f : α → α → α) (hf : ∀ x y, f x y = x ∨ f x y = y)
    (l : List α) (a : α) : l.foldl f a ∈ a :: l := by
  induction l generalizing a with
  | nil => simp
  | cons b t ih =>
    rw [List.foldl_cons]
    rcases hf a b with h | h <;> rw [h]
    · rcases List.mem_cons.mp (ih a) with h2 | h2
      · rw [h2]; exact List.mem_cons_self _ _
      · exact List.mem_cons_of_mem _ (List.mem_cons_of_mem _ h2)
    · rcases List.mem_cons.mp (ih b) with h2 | h2
      · rw [h2]; exact List.mem_cons_of_mem _ (List.mem_cons_self _ _)
      · exact List.mem_cons_of_mem _ (List.mem_cons_of_mem _ h2)

lemma selectBestChildIdx_lt (parentVisits : Nat) (c : ℝ) (children : List Node) (i : Nat)
    (h : selectBestChildIdx parentVisits c children = some i) : i < children.length := by
  unfold selectBestChildIdx at h
  cases he : children.enum with
  | nil => rw [he] at h; cases h
  | cons e es =>
    rw [he] at h
    simp only [Option.some.injEq] at h
    have hmem : (es.foldl (fun best child =>
        if child.2.ucb1 parentVisits c > best.2.ucb1 parentVisits c then child else best) e)
        ∈ e :: es := by
      apply foldl_choice_mem
      intro x y
      by_cases hxy : y.2.ucb1 parentVisits c > x.2.ucb1 parentVisits c
      · rw [if_pos hxy]; exact Or.inr rfl
      · rw [if_neg hxy]; exact Or.inl rfl
    rw [← he] at hmem
    have hget := List.mem_enum_iff_get?.mp hmem
    have := List.get?_eq_some.mp hget
    rw [← h]
    exact this.1

lemma Node.sizeOf_children_lt (n : Node) : sizeOf n.children < sizeOf n := by
  cases n with
  | mk s m v w u c =>
    simp only [Node.children]
    simp

/-- One iteration of `MCTSSearch.search`, fusing `select` (the descent while
a node is non-terminal and fully expanded), the expansion step, `simulate`
and `backpropagate`: each level of the recursion bumps its own node with
the playout result exactly as the parent-pointer walk of `backpropagate`
does.  `depth` is `getDepth(node)` and `k` the next random index.  `fuel`
only bounds the structural recursion: `search` passes `maxDepth + 1`, and
since children exist only below nodes whose depth satisfied
`depth < maxDepth` at expansion time, the descent can never consume it.  -/
noncomputable def searchIterate (config : MCTSConfig) (rng : Nat → ℚ) :
    Nat → Node → Nat → Nat → Except String (Node × ℚ × Nat)
  | 0, _, _, _ => .error "selection descent exceeded the depth bound"
  | fuel + 1, n, depth, k =>
    if ¬ n.isTerminal ∧ n.isFullyExpanded then
      match selectBestChildIdx n.visits config.explorationConstant n.children with
      | none => .error "Reduce of empty array with no initial value"
      | some i =>
        if hi : i < n.children.length then
          match searchIterate config rng fuel (n.children.get ⟨i, hi⟩) (depth + 1) k with
          | .error e => .error e
          | .ok (child2, result, k2) =>
            .ok ((n.withChildren (n.children.set i child2)).bump result, result, k2)
        else .error "impossible child index"
    else if ¬ n.isTerminal ∧ 0 < n.visits ∧ depth < config.maxDepth ∧ ¬ n.isFullyExpanded then
      match n.expand with
      | .error e => .error e
      | .ok (child, expanded) => expandStep config rng k child expanded
    else
      .ok (n.bump (MCTSSearch.simulate config rng k n.state).1,
        (MCTSSearch.simulate config rng k n.state).1,
        (MCTSSearch.simulate config rng k n.state).2)

/-- The `for (iteration = 0; iteration < maxIterations; iteration++)` loop of
`MCTSSearch.search`, threading the evolving root and the random index. -/
noncomputable def searchLoop (config : MCTSConfig) (rng : Nat → ℚ) :
    Nat → Node → Nat → Except String (Node × Nat)
  | 0, root, k => .ok (root, k)
  | iterations + 1, root, k =>
    match searchIterate config rng (config.maxDepth + 1) root 0 k with
    | .error e => .error e
    | .ok (root2, _, k2) => searchLoop config rng iterations root2 k2

/-- The root node (and next random index) after the full iteration budget of
`MCTSSearch.search`, starting from `new MCTSNode(initialState)`. -/
noncomputable def MCTSSearch.searchRoot (config : MCTSConfig) (rng : Nat → ℚ)
    (initialState : GameState) : Except String (Node × Nat) :=
  searchLoop config rng config.maxIterations (Node.new initialState none) 0

/-- `MCTSSearch.search` from `mcts.ts`: run the iterations, then return the
move of the root child with the highest visit count (`reduce` with strict
`>`, so the earliest maximal child wins); the `reduce` of an empty children
list throws, as does a null `bestChild.move!`. -/
noncomputable def MCTSSearch.search (config : MCTSConfig) (rng : Nat → ℚ)
    (initialState : GameState) : Except String Move :=
  match MCTSSearch.searchRoot config rng initialState with
  | .error e => .error e
  | .ok (root, _) =>
    match root.children with
    | [] => .error "Reduce of empty array with no initial value"
    | c :: cs =>
      match (cs.foldl (fun best child =>
          if child.visits > best.visits then child else best) c).move with
      | some m => .ok m
      | none => .error "bestChild.move is null"

lemma rngZero_floor_index (j : Nat) (x : ℚ) : (⌊rngZero j * x⌋).toNat = 0 := by
  simp [rngZero]

lemma playoutGo_stop_gameOver (config : MCTSConfig) (rng : Nat → ℚ) (fuel : Nat)
    (state : GameState) (k : Nat) (h : state.gameOver = true) :
    MCTSSearch.playoutGo config rng fuel state k = (state, k) := by
  cases fuel with
  | zero => rfl
  | succ f =>
    simp only [MCTSSearch.playoutGo]
    rw [if_pos h]

lemma playoutGo_stop_noMoves (config : MCTSConfig) (rng : Nat → ℚ) (fuel : Nat)
    (state : GameState) (k : Nat) (h1 : state.gameOver = false)
    (h2 : (getLegalMoves state).length = 0) :
    MCTSSearch.playoutGo config rng fuel state k = (state, k) := by
  cases fuel with
  | zero => rfl
  | succ f =>
    simp only [MCTSSearch.playoutGo]
    rw [h1]
    simp only [Bool.false_eq_true, if_false]
    rw [if_pos h2]

lemma playoutGo_step (config : MCTSConfig) (rng : Nat → ℚ) (fuel : Nat)
    (state : GameState) (k : Nat) (h1 : state.gameOver = false)
    (h2 : ¬ (getLegalMoves state).length = 0) (mv : Move) (k2 : Nat)
    (hmv : (MCTSSearch.sortMoves config rng k (getLegalMoves state) state).1.getD
        ((⌊rng (MCTSSearch.sortMoves config rng k (getLegalMoves state) state).2 *
          (min 3 (MCTSSearch.sortMoves config rng k (getLegalMoves state) state).1.length : Nat)⌋).toNat)
        default = mv)
    (hk : (MCTSSearch.sortMoves config rng k (getLegalMoves state) state).2 = k2) :
    MCTSSearch.playoutGo config rng (fuel + 1) state k =
      MCTSSearch.playoutGo config rng fuel (applyMove state mv) (k2 + 1) := by
  simp only [MCTSSearch.playoutGo]
  rw [h1]
  simp only [Bool.false_eq_true, if_false]
  rw [if_neg h2, hmv, hk]

lemma searchIterate_noExpand (config : MCTSConfig) (rng : Nat → ℚ) (fuel : Nat)
    (n : Node) (depth k : Nat)
    (h1 : ¬ (¬ n.isTerminal = true ∧ n.isFullyExpanded = true))
    (h2 : ¬ (¬ n.isTerminal = true ∧ 0 < n.visits ∧ depth < config.maxDepth ∧
      ¬ n.isFullyExpanded = true)) :
    searchIterate config rng (fuel + 1) n depth k =
      .ok (n.bump (MCTSSearch.simulate config rng k n.state).1,
        (MCTSSearch.simulate config rng k n.state).1,
        (MCTSSearch.simulate config rng k n.state).2) := by
  simp only [searchIterate]
  rw [if_neg h1, if_neg h2]

lemma searchIterate_expand (config : MCTSConfig) (rng : Nat → ℚ) (fuel : Nat)
    (n : Node) (depth k : Nat)
    (h1 : ¬ (¬ n.isTerminal = true ∧ n.isFullyExpanded = true))
    (h2 : ¬ n.isTerminal = true ∧ 0 < n.visits ∧ depth < config.maxDepth ∧
      ¬ n.isFullyExpanded = true)
    (child expanded : Node) (hexp : n.expand = .ok (child, expanded)) :
    searchIterate config rng (fuel + 1) n depth k =
      expandStep config rng k child expanded := by
  simp only [searchIterate]
  rw [if_neg h1, if_pos h2, hexp]

lemma expandStep_eval (config : MCTSConfig) (rng : Nat → ℚ) (k : Nat)
    (child expanded : Node) (r : ℚ) (k2 : Nat)
    (h : MCTSSearch.simulate config rng k child.state = (r, k2)) :
    expandStep config rng k child expanded =
      .ok ((expanded.withChildren (expanded.children.dropLast ++ [child.bump r])).bump r,
        r, k2) := by
  unfold expandStep
  rw [h]

lemma simulate_eval (config : MCTSConfig) (rng : Nat → ℚ) (k : Nat) (state : GameState)
    (final : GameState) (k2 : Nat)
    (h : MCTSSearch.playout config rng state k = (final, k2)) :
    MCTSSearch.simulate config rng k state =
      (if final.winner = some state.currentPlayer then 1
       else if final.winner = none then 1 / 2 else 0, k2) := by
  unfold MCTSSearch.simulate
  rw [h]

/-- Concrete pieces for the MCTS scenarios: three tall pieces already on row
0, a fourth tall piece `pieceB` in the available set, and a short piece
`pieceA` staged for the mover. -/
def pieceT1 : PieceAttributes := ⟨.tall, .light, .square, .solid⟩

def pieceT2 : PieceAttributes := ⟨.tall, .light, .square, .hollow⟩

def pieceT3 : PieceAttributes := ⟨.tall, .light, .round, .solid⟩

def pieceB : PieceAttributes := ⟨.tall, .dark, .square, .solid⟩

def pieceA : PieceAttributes := ⟨.short, .dark, .round, .hollow⟩

def boardR1 : Board :=
  [[some pieceT1, some pieceT2, some pieceT3, none],
   [none, none, none, none],
   [none, none, none, none],
   [none, none, none, none]]

/-- The root state of the counterexample search: player one must place the
short `pieceA` and `pieceB` (which completes row 0) is the only piece left
to give. -/
def stateR1 : GameState :=
  { board := boardR1, availablePieces := [pieceB], stagedPiece := some pieceA,
    currentPlayer := .one, gameOver := false, winner := none }

/-- A legal configuration: two iterations, corners-first playout bias. -/
noncomputable def cfgC1 : MCTSConfig :=
  { maxIterations := 2, maxDepth := 20, explorationConstant := 1,
    moveSortStrategy := .cornersFirst, playoutDepth := 50 }

def mv1 : Move := { place := some (0, 3), give := some pieceB }

def mv2 : Move := { place := some (3, 0), give := none }

def mv33 : Move := { place := some (3, 3), give := some pieceB }

def mvWin : Move := { place := some (0, 3), give := none }

def state2x : GameState := applyMove stateR1 mv1

def state3x : GameState := applyMove state2x mv2

/-- The state of the child expanded in iteration 2: `pieceA` placed at
(3, 3), `pieceB` staged for player two. -/
def stateC1 : GameState := applyMove stateR1 mv33

def stateD : GameState := applyMove stateC1 mvWin

lemma playout_R1 : MCTSSearch.playout cfgC1 rngZero stateR1 0 = (state3x, 2) := by
  show MCTSSearch.playoutGo cfgC1 rngZero cfgC1.playoutDepth stateR1 0 = (state3x, 2)
  rw [show cfgC1.playoutDepth = 49 + 1 from rfl]
  rw [playoutGo_step cfgC1 rngZero 49 stateR1 0 rfl (by decide) mv1 0
    (by rw [rngZero_floor_index]; decide) (by decide)]
  rw [show (49 : Nat) = 48 + 1 from rfl]
  rw [playoutGo_step cfgC1 rngZero 48 (applyMove stateR1 mv1) (0 + 1) (by decide) (by decide)
    mv2 1 (by rw [rngZero_floor_index]; decide) (by decide)]
  rw [playoutGo_stop_noMoves cfgC1 rngZero 48 (applyMove (applyMove stateR1 mv1) mv2) (1 + 1)
    (by decide) (by decide)]
  rfl

lemma simulate_R1 : MCTSSearch.simulate cfgC1 rngZero 0 stateR1 = (1 / 2, 2) := by
  rw [simulate_eval cfgC1 rngZero 0 stateR1 state3x 2 playout_R1]
  rw [if_neg (by decide), if_pos (by decide)]

lemma playout_C1 : MCTSSearch.playout cfgC1 rngZero stateC1 2 = (stateD, 3) := by
  show MCTSSearch.playoutGo cfgC1 rngZero cfgC1.playoutDepth stateC1 2 = (stateD, 3)
  rw [show cfgC1.playoutDepth = 49 + 1 from rfl]
  rw [playoutGo_step cfgC1 rngZero 49 stateC1 2 (by decide) (by decide) mvWin 2
    (by rw [rngZero_floor_index]; decide) (by decide)]
  rw [playoutGo_stop_gameOver cfgC1 rngZero 49 (applyMove stateC1 mvWin) (2 + 1) (by decide)]
  rfl

lemma simulate_C1 : MCTSSearch.simulate cfgC1 rngZero 2 stateC1 = (1, 3) := by
  rw [simulate_eval cfgC1 rngZero 2 stateC1 stateD 3 playout_C1]
  rw [if_pos (by decide)]

def root0 : Node := Node.new stateR1 none

def root1 : Node := root0.bump (1 / 2)

def child0 : Node := Node.new stateC1 (some mv33)

def root1exp : Node :=
  Node.mk root1.state root1.move root1.visits root1.wins root1.untriedMoves.dropLast
    (root1.children ++ [child0])

def root2 : Node :=
  (root1exp.withChildren (root1exp.children.dropLast ++ [child0.bump 1])).bump 1

lemma iterate1_R1 (fuel : Nat) :
    searchIterate cfgC1 rngZero (fuel + 1) root0 0 0 = .ok (root1, 1 / 2, 2) := by
  rw [searchIterate_noExpand cfgC1 rngZero fuel root0 0 0 (by decide) (by decide)]
  rw [show root0.state = stateR1 from rfl, simulate_R1]
  rfl

lemma expand_root1 : root1.expand = .ok (child0, root1exp) := rfl

lemma iterate2_R1 (fuel : Nat) :
    searchIterate cfgC1 rngZero (fuel + 1) root1 0 2 = .ok (root2, 1, 3) := by
  rw [searchIterate_expand cfgC1 rngZero fuel root1 0 2 (by decide) (by decide)
    child0 root1exp expand_root1]
  rw [expandStep_eval cfgC1 rngZero 2 child0 root1exp 1 3
    (by rw [show child0.state = stateC1 from rfl]; exact simulate_C1)]
  rfl

lemma searchRoot_R1 : MCTSSearch.searchRoot cfgC1 rngZero stateR1 = .ok (root2, 3) := by
  show searchLoop cfgC1 rngZero cfgC1.maxIterations (Node.new stateR1 none) 0 = .ok (root2, 3)
  rw [show cfgC1.maxIterations = 1 + 1 from rfl]
  simp only [searchLoop]
  rw [show Node.new stateR1 none = root0 from rfl, iterate1_R1 cfgC1.maxDepth]
  simp only [searchLoop]
  rw [iterate2_R1 cfgC1.maxDepth]

/-- C1 (counterexample): the playout result of `MCTSSearch.simulate` is NOT
scored from the perspective of the player who owned the root position.  In
the search from `stateR1` (root owned by player one), iteration 2 expands
the child `stateC1` (to move: player two); its playout ends with player two
winning — a LOSS for the root player — yet `simulate` returns 1.0 (not the
0.0 the claim requires) and that 1.0 is what backpropagation adds to the
child's win accumulator. -/
theorem simulate_not_root_perspective_ce :
    stateR1.currentPlayer = Player.one ∧
    (MCTSSearch.searchRoot cfgC1 rngZero stateR1).toOption.map
      (fun rk => rk.1.children.map (fun c => (c.wins, c.visits, c.state.currentPlayer))) =
      some [(1, 1, Player.two)] ∧
    (MCTSSearch.playout cfgC1 rngZero stateC1 2).1.winner = some Player.two ∧
    (MCTSSearch.simulate cfgC1 rngZero 2 stateC1).1 = 1 ∧
    stateC1 = applyMove stateR1 mv33 := by
  refine ⟨rfl, ?_, ?_, ?_, rfl⟩
  · rw [searchRoot_R1]
    show some ([child0.bump 1].map (fun c => (c.wins, c.visits, c.state.currentPlayer))) =
      some [(1, 1, Player.two)]
    simp only [List.map_cons, List.map_nil]
    norm_num [Node.bump, Node.wins, Node.visits, Node.state, child0, Node.new]
    decide
  · rw [playout_C1]
    decide
  · rw [simulate_C1]

lemma otherPlayer_of_ne (p q : Player) (h : q ≠ p) : q = otherPlayer p := by
  cases p <;> cases q <;> first | rfl | simp at h | rfl

lemma simulate_cases (config : MCTSConfig) (rng : Nat → ℚ) (k : Nat) (s : GameState) :
    ((MCTSSearch.simulate config rng k s).1 = 1 ↔
      (MCTSSearch.playout config rng s k).1.winner = some s.currentPlayer) ∧
    ((MCTSSearch.simulate config rng k s).1 = 1 / 2 ↔
      (MCTSSearch.playout config rng s k).1.winner = none) ∧
    ((MCTSSearch.simulate config rng k s).1 = 0 ↔
      (MCTSSearch.playout config rng s k).1.winner = some (otherPlayer s.currentPlayer)) ∧
    (MCTSSearch.simulate config rng k s).2 = (MCTSSearch.playout config rng s k).2 := by
  unfold MCTSSearch.simulate
  by_cases h1 : (MCTSSearch.playout config rng s k).1.winner = some s.currentPlayer
  · rw [if_pos h1]
    refine ⟨⟨fun _ => h1, fun _ => rfl⟩, ?_, ?_, rfl⟩
    · constructor
      · intro h; norm_num at h
      · intro h; rw [h] at h1; cases h1
    · constructor
      · intro h; norm_num at h
      · intro h
        rw [h] at h1
        have : otherPlayer s.currentPlayer = s.currentPlayer := by
          injection h1
        cases hc : s.currentPlayer <;> rw [hc] at this <;> cases this
  · rw [if_neg h1]
    by_cases h2 : (MCTSSearch.playout config rng s k).1.winner = none
    · rw [if_pos h2]
      refine ⟨?_, ⟨fun _ => h2, fun _ => rfl⟩, ?_, rfl⟩
      · constructor
        · intro h; norm_num at h
        · intro h; exact absurd h h1
      · constructor
        · intro h; norm_num at h
        · intro h; rw [h] at h2; cases h2
    · rw [if_neg h2]
      refine ⟨?_, ?_, ⟨fun _ => ?_, fun _ => rfl⟩, rfl⟩
      · constructor
        · intro h; norm_num at h
        · intro h; exact absurd h h1
      · constructor
        · intro h; norm_num at h
        · intro h; exact absurd h h2
      · cases hw : (MCTSSearch.playout config rng s k).1.winner with
        | none => exact absurd hw h2
        | some q =>
          have hq : q = otherPlayer s.currentPlayer :=
            otherPlayer_of_ne s.currentPlayer q (fun hq2 => h1 (by rw [hw, hq2]))
          rw [hq]

lemma expand_preserves_counters (n child expanded : Node) (h : n.expand = .ok (child, expanded)) :
    expanded.visits = n.visits ∧ expanded.wins = n.wins := by
  unfold Node.expand at h
  cases hl : n.untriedMoves.getLast? with
  | none => rw [hl] at h; cases h
  | some mv =>
    rw [hl] at h
    injection h with h1
    injection h1 with hchild hexp
    rw [← hexp]
    exact ⟨rfl, rfl⟩

lemma searchIterate_bump (config : MCTSConfig) (rng : Nat → ℚ) (fuel : Nat)
    (n : Node) (depth k : Nat) (n2 : Node) (r : ℚ) (k2 : Nat)
    (h : searchIterate config rng fuel n depth k = .ok (n2, r, k2)) :
    n2.visits = n.visits + 1 ∧ n2.wins = n.wins + r := by
  cases fuel with
  | zero => cases h
  | succ f =>
    simp only [searchIterate] at h
    split at h
    · split at h
      · cases h
      · split at h
        · split at h
          · cases h
          · injection h with h1
            injection h1 with ha hb
            injection hb with hr hk
            rw [← ha, ← hr]
            exact ⟨rfl, rfl⟩
        · cases h
    · split at h
      · split at h
        · cases h
        · rename_i child expanded heq
          unfold expandStep at h
          injection h with h1
          injection h1 with ha hb
          injection hb with hr hk
          obtain ⟨hv, hw⟩ := expand_preserves_counters n child expanded heq
          rw [← ha]
          constructor
          · show expanded.visits + 1 = n.visits + 1
            rw [hv]
          · show expanded.wins + (MCTSSearch.simulate config rng k child.state).1 = n.wins + r
            rw [hw, hr]
      · injection h with h1
        injection h1 with ha hb
        injection hb with hr hk
        rw [← ha, ← hr]
        exact ⟨rfl, rfl⟩

lemma searchLoop_succ (config : MCTSConfig) (rng : Nat → ℚ) (iters : Nat) (root : Node)
    (k : Nat) :
    searchLoop config rng (iters + 1) root k =
      match searchIterate config rng (config.maxDepth + 1) root 0 k with
      | .error e => .error e
      | .ok (root2, _, k2) => searchLoop config rng iters root2 k2 := rfl

lemma new_not_fullyExpanded (s : GameState) (h3 : getLegalMoves s ≠ []) :
    (Node.new s none).isFullyExpanded = false := by
  unfold Node.isFullyExpanded Node.new Node.untriedMoves
  simp [List.length_eq_zero, h3]

lemma searchLoop_one (config : MCTSConfig) (rng : Nat → ℚ) (s : GameState)
    (h3 : getLegalMoves s ≠ []) :
    searchLoop config rng 1 (Node.new s none) 0 =
      .ok ((Node.new s none).bump (MCTSSearch.simulate config rng 0 s).1,
        (MCTSSearch.simulate config rng 0 s).2) := by
  rw [show (1 : Nat) = 0 + 1 from rfl, searchLoop_succ]
  rw [searchIterate_noExpand config rng config.maxDepth (Node.new s none) 0 0
    (by rw [new_not_fullyExpanded s h3]; simp)
    (by simp [Node.new, Node.visits])]
  rfl

lemma search_eq_match (config : MCTSConfig) (rng : Nat → ℚ) (s : GameState) :
    MCTSSearch.search config rng s =
      match MCTSSearch.searchRoot config rng s with
      | .error e => .error e
      | .ok (root, _) =>
        match root.children with
        | [] => .error "Reduce of empty array with no initial value"
        | c :: cs =>
          match (cs.foldl (fun best child =>
              if child.visits > best.visits then child else best) c).move with
          | some m => .ok m
          | none => .error "bestChild.move is null" := rfl

theorem searchRoot_maxIter_one (config : MCTSConfig) (rng : Nat → ℚ) (s : GameState)
    (h1 : config.maxIterations = 1) (h3 : getLegalMoves s ≠ []) :
    MCTSSearch.searchRoot config rng s =
      .ok ((Node.new s none).bump (MCTSSearch.simulate config rng 0 s).1,
        (MCTSSearch.simulate config rng 0 s).2) ∧
    ((Node.new s none).bump (MCTSSearch.simulate config rng 0 s).1).visits = 1 ∧
    ((Node.new s none).bump (MCTSSearch.simulate config rng 0 s).1).children = [] ∧
    MCTSSearch.search config rng s =
      .error "Reduce of empty array with no initial value" := by
  have hroot : MCTSSearch.searchRoot config rng s =
      .ok ((Node.new s none).bump (MCTSSearch.simulate config rng 0 s).1,
        (MCTSSearch.simulate config rng 0 s).2) := by
    show searchLoop config rng config.maxIterations (Node.new s none) 0 = _
    rw [h1]
    exact searchLoop_one config rng s h3
  refine ⟨hroot, rfl, rfl, ?_⟩
  rw [search_eq_match, hroot]
  rfl

lemma searchIterate_terminal (config : MCTSConfig) (rng : Nat → ℚ) (fuel : Nat)
    (n : Node) (depth k : Nat) (hterm : n.isTerminal = true) :
    searchIterate config rng (fuel + 1) n depth k =
      .ok (n.bump (MCTSSearch.simulate config rng k n.state).1,
        (MCTSSearch.simulate config rng k n.state).1,
        (MCTSSearch.simulate config rng k n.state).2) :=
  searchIterate_noExpand config rng fuel n depth k (by simp [hterm]) (by simp [hterm])

lemma searchLoop_terminal (config : MCTSConfig) (rng : Nat → ℚ) (iters : Nat)
    (n : Node) (k : Nat) (hterm : n.isTerminal = true) :
    ∃ n2 k2, searchLoop config rng iters n k = .ok (n2, k2) ∧
      n2.children = n.children ∧ n2.isTerminal = true := by
  induction iters generalizing n k with
  | zero => exact ⟨n, k, rfl, rfl, hterm⟩
  | succ it ih =>
    rw [searchLoop_succ, searchIterate_terminal config rng config.maxDepth n 0 k hterm]
    obtain ⟨n2, k2, hloop, hch, ht⟩ :=
      ih (n.bump (MCTSSearch.simulate config rng k n.state).1)
        (MCTSSearch.simulate config rng k n.state).2 hterm
    exact ⟨n2, k2, hloop, hch, ht⟩

theorem search_terminal_root_error (config : MCTSConfig) (rng : Nat → ℚ) (s : GameState)
    (h : s.gameOver = true) :
    MCTSSearch.search config rng s =
      .error "Reduce of empty array with no initial value" := by
  obtain ⟨n2, k2, hloop, hch, -⟩ :=
    searchLoop_terminal config rng config.maxIterations (Node.new s none) 0 h
  have hch2 : n2.children = [] := hch
  rw [search_eq_match]
  show (match MCTSSearch.searchRoot config rng s with
    | Except.error e => Except.error e
    | Except.ok (root, _) => _) = _
  rw [show MCTSSearch.searchRoot config rng s = .ok (n2, k2) from hloop]
  simp only []
  rw [hch2]

theorem search_empty_children_error (config : MCTSConfig) (rng : Nat → ℚ) (s : GameState)
    (root : Node) (k : Nat) (h : MCTSSearch.searchRoot config rng s = .ok (root, k))
    (hch : root.children = []) :
    MCTSSearch.search config rng s =
      .error "Reduce of empty array with no initial value" := by
  rw [search_eq_match, h]
  simp only []
  rw [hch]

lemma expand_error_iff (n : Node) :
    n.expand = .error "Cannot expand fully expanded node" ↔ n.untriedMoves = [] := by
  unfold Node.expand
  cases hl : n.untriedMoves.getLast? with
  | none =>
    simp only []
    rw [List.getLast?_eq_none_iff] at hl
    simp [hl]
  | some mv =>
    simp only []
    constructor
    · intro h; cases h
    · intro h
      rw [h] at hl
      cases hl

lemma expand_ok_of_untried_ne (n : Node) (h : n.untriedMoves ≠ []) :
    ∃ child expanded, n.expand = .ok (child, expanded) := by
  unfold Node.expand
  cases hl : n.untriedMoves.getLast? with
  | none =>
    rw [List.getLast?_eq_none_iff] at hl
    exact absurd hl h
  | some mv => exact ⟨_, _, rfl⟩

lemma searchIterate_ne_expandError (config : MCTSConfig) (rng : Nat → ℚ) (fuel : Nat)
    (n : Node) (depth k : Nat) :
    searchIterate config rng fuel n depth k ≠ .error "Cannot expand fully expanded node" := by
  induction fuel generalizing n depth k with
  | zero =>
    intro h
    injection h with hs
    exact absurd hs (by decide)
  | succ f ih =>
    simp only [searchIterate]
    split
    · split
      · intro h
        injection h with hs
        exact absurd hs (by decide)
      · split
        · split
          · rename_i e heq
            intro h
            injection h with hs
            rw [hs] at heq
            exact ih _ _ _ heq
          · intro h
            cases h
        · intro h
          injection h with hs
          exact absurd hs (by decide)
    · split
      · rename_i hguard
        split
        · rename_i e heq
          have hne : n.untriedMoves ≠ [] := by
            intro hnil
            have : n.isFullyExpanded = true := by
              unfold Node.isFullyExpanded
              rw [hnil]
              rfl
            exact hguard.2.2.2 this
          obtain ⟨child, expanded, hok⟩ := expand_ok_of_untried_ne n hne
          rw [hok] at heq
          cases heq
        · unfold expandStep
          intro h
          cases h
      · intro h
        cases h

lemma searchLoop_ne_expandError (config : MCTSConfig) (rng : Nat → ℚ) (iters : Nat)
    (root : Node) (k : Nat) :
    searchLoop config rng iters root k ≠ .error "Cannot expand fully expanded node" := by
  induction iters generalizing root k with
  | zero =>
    intro h
    cases h
  | succ it ih =>
    rw [searchLoop_succ]
    cases hit : searchIterate config rng (config.maxDepth + 1) root 0 k with
    | error e =>
      simp only []
      intro h
      injection h with hs
      rw [hs] at hit
      exact searchIterate_ne_expandError config rng _ root 0 k hit
    | ok out =>
      simp only []
      exact ih out.1 out.2.2

theorem search_ne_expandError (config : MCTSConfig) (rng : Nat → ℚ) (s : GameState) :
    MCTSSearch.search config rng s ≠ .error "Cannot expand fully expanded node" := by
  rw [search_eq_match]
  cases hroot : MCTSSearch.searchRoot config rng s with
  | error e =>
    simp only []
    intro h
    injection h with hs
    rw [hs] at hroot
    exact searchLoop_ne_expandError config rng config.maxIterations (Node.new s none) 0 hroot
  | ok rk =>
    simp only []
    cases rk.1.children with
    | nil =>
      intro h
      injection h with hs
      exact absurd hs (by decide)
    | cons c cs =>
      simp only []
      cases (cs.foldl (fun best child =>
          if child.visits > best.visits then child else best) c).move with
      | some m =>
        intro h
        cases h
      | none =>
        intro h
        injection h with hs
        exact absurd hs (by decide)

/-- The multiset of pieces sitting on the board, as a list. -/
def boardPieces (board : Board) : List PieceAttributes :=
  board.flatMap (fun row => row.filterMap id)

/-- Every piece of a state, wherever it lives: on the board, in the
available set, or staged. -/
def inventory (s : GameState) : List PieceAttributes :=
  boardPieces s.board ++ s.availablePieces ++ s.stagedPiece.toList

/-- Invariants 1, 3 and 5 of the data model (§3) as a state predicate: the
board is a 4×4 grid, no piece is duplicated or lost (the combined
inventory has no duplicates and its length is 16 — with only 16 piece
values this pins every piece to exactly one place), and the terminal flag
holds exactly when a win line exists or the board is full. -/
def StateInv (s : GameState) : Prop :=
  BoardWF s.board ∧ (inventory s).Nodup ∧ (inventory s).length = 16 ∧
    s.gameOver = (checkWinCondition s.board || isBoardFull s.board)

instance (s : GameState) : Decidable (StateInv s) := by
  unfold StateInv; infer_instance

lemma arePiecesEqual_eq_decide (p g : PieceAttributes) :
    arePiecesEqual p g = decide (p = g) :=
  bool_eq_decide (arePiecesEqual_iff p g)

lemma filter_not_arePiecesEqual (l : List PieceAttributes) (g : PieceAttributes) :
    l.filter (fun p => !arePiecesEqual p g) = l.filter (fun p => p ≠ g) := by
  apply List.filter_congr
  intro p _
  rw [arePiecesEqual_eq_decide]
  cases hd : decide (p = g) with
  | false => simp_all
  | true => simp_all

lemma cons_filter_ne_perm (l : List PieceAttributes) (g : PieceAttributes)
    (hnd : l.Nodup) (hg : g ∈ l) : l.Perm (g :: l.filter (fun p => p ≠ g)) := by
  induction l with
  | nil => cases hg
  | cons a t ih =>
    rcases List.mem_cons.mp hg with rfl | hgt
    · have hnot : ∀ p ∈ t, p ≠ g := fun p hp he => (List.nodup_cons.mp hnd).1 (he ▸ hp)
      have hft : t.filter (fun p => p ≠ g) = t := by
        apply List.filter_eq_self.mpr
        intro p hp
        simp [hnot p hp]
      rw [List.filter_cons, if_neg (by simp), hft]
    · have hag : a ≠ g := fun he => (List.nodup_cons.mp hnd).1 (he ▸ hgt)
      rw [List.filter_cons, if_pos (by simp [hag])]
      exact ((ih (List.nodup_cons.mp hnd).2 hgt).cons a).trans (List.Perm.swap _ _ _)

lemma rowPieces_set_perm (row : List (Option PieceAttributes)) (c : Nat)
    (p : PieceAttributes) (hc : c < row.length) (hnone : row.getD c none = none) :
    ((row.set c (some p)).filterMap id).Perm (p :: row.filterMap id) := by
  induction row generalizing c with
  | nil => cases hc
  | cons o t ih =>
    cases c with
    | zero =>
      have : o = none := hnone
      rw [this]
      simp [List.filterMap_cons]
    | succ c2 =>
      have hc2 : c2 < t.length := by simpa using hc
      have hnone2 : t.getD c2 none = none := hnone
      rw [List.set_cons_succ]
      cases o with
      | none => simpa [List.filterMap_cons] using ih c2 hc2 hnone2
      | some q =>
        simp only [List.filterMap_cons, id]
        exact ((ih c2 hc2 hnone2).cons q).trans (List.Perm.swap _ _ _)

lemma boardPieces_setRow_perm (b : List (List (Option PieceAttributes))) (r : Nat)
    (row2 : List (Option PieceAttributes)) (p : PieceAttributes) (hlt : r < b.length)
    (hrow : (row2.filterMap id).Perm (p :: (b.getD r []).filterMap id)) :
    ((b.set r row2).flatMap (fun row => row.filterMap id)).Perm
      (p :: b.flatMap (fun row => row.filterMap id)) := by
  induction b generalizing r with
  | nil => cases hlt
  | cons hd tl ih =>
    cases r with
    | zero =>
      rw [List.set_cons_zero]
      simp only [List.flatMap_cons]
      have hrow0 : (row2.filterMap id).Perm (p :: hd.filterMap id) := hrow
      exact hrow0.append_right _
    | succ r2 =>
      rw [List.set_cons_succ]
      simp only [List.flatMap_cons]
      have hlt2 : r2 < tl.length := by simpa using hlt
      have hperm := ih r2 hlt2 hrow
      exact (hperm.append_left (hd.filterMap id)).trans List.perm_middle

lemma boardPieces_setCell_perm (b : Board) (r c : Nat) (p : PieceAttributes)
    (hwf : BoardWF b) (hr : r < 4) (hc : c < 4) (hnone : cellAt b r c = none) :
    (boardPieces (setCell b r c (some p))).Perm (p :: boardPieces b) := by
  have hlt : r < b.length := by rw [hwf.1]; exact hr
  have hrlen : (b.getD r []).length = 4 := by
    apply hwf.2
    rw [List.getD_eq_getElem b [] hlt]
    exact List.getElem_mem hlt
  unfold boardPieces setCell
  exact boardPieces_setRow_perm b r _ p hlt
    (rowPieces_set_perm (b.getD r []) c p (by rw [hrlen]; exact hc) hnone)

lemma length_filterMap_id_le (l : List (Option PieceAttributes)) :
    (l.filterMap id).length ≤ l.length := by
  induction l with
  | nil => simp
  | cons o t ih =>
    cases o with
    | none => simp only [List.filterMap_cons]; simp; omega
    | some q => simp only [List.filterMap_cons]; simp; omega

lemma all_isSome_of_filterMap_len (l : List (Option PieceAttributes))
    (h : (l.filterMap id).length = l.length) : l.all (fun o => o.isSome) = true := by
  induction l with
  | nil => rfl
  | cons o t ih =>
    cases o with
    | none =>
      exfalso
      have := length_filterMap_id_le t
      simp only [List.filterMap_cons] at h
      simp at h
      omega
    | some q =>
      simp only [List.filterMap_cons] at h
      simp only [List.all_cons, Option.isSome_some, Bool.true_and]
      apply ih
      simpa using h

lemma isBoardFull_of_sixteen (b : Board) (hwf : BoardWF b)
    (hlen : (boardPieces b).length = 16) : isBoardFull b = true := by
  obtain ⟨r0, r1, r2, r3, hb⟩ := length_four_destruct hwf.1
  have hl0 : r0.length = 4 := hwf.2 r0 (by rw [hb]; simp)
  have hl1 : r1.length = 4 := hwf.2 r1 (by rw [hb]; simp)
  have hl2 : r2.length = 4 := hwf.2 r2 (by rw [hb]; simp)
  have hl3 : r3.length = 4 := hwf.2 r3 (by rw [hb]; simp)
  subst hb
  unfold boardPieces at hlen
  simp only [List.flatMap_cons, List.flatMap_nil, List.append_nil,
    List.length_append] at hlen
  have e0 := length_filterMap_id_le r0
  have e1 := length_filterMap_id_le r1
  have e2 := length_filterMap_id_le r2
  have e3 := length_filterMap_id_le r3
  unfold isBoardFull
  simp only [List.all_cons, List.all_nil, Bool.and_true]
  rw [all_isSome_of_filterMap_len r0 (by omega), all_isSome_of_filterMap_len r1 (by omega),
    all_isSome_of_filterMap_len r2 (by omega), all_isSome_of_filterMap_len r3 (by omega)]
  rfl

lemma getD_set_ne {α} (l : List α) (i j : Nat) (x : α) (d : α) (h : j ≠ i) :
    (l.set i x).getD j d = l.getD j d := by
  rw [List.getD_eq_getElem?_getD (l.set i x) j d, List.getD_eq_getElem?_getD l j d,
    List.getElem?_set_ne (by omega)]

lemma cellAt_setCell_ne (b : Board) (r c r2 c2 : Nat) (v : Option PieceAttributes)
    (h : ¬ (r2 = r ∧ c2 = c)) : cellAt (setCell b r c v) r2 c2 = cellAt b r2 c2 := by
  unfold cellAt setCell
  by_cases hr : r2 = r
  · subst hr
    have hc : c2 ≠ c := fun he => h ⟨rfl, he⟩
    by_cases hlt : r2 < b.length
    · rw [List.getD_eq_getElem?_getD (List.set b r2 ((b.getD r2 []).set c v)) r2 [],
        List.getElem?_set_self (by omega)]
      simp only [Option.getD_some]
      rw [List.getD_eq_getElem?_getD b r2 [], List.getElem?_eq_getElem hlt]
      simp only [Option.getD_some]
      have hbr : b[r2] = b.getD r2 [] := (List.getD_eq_getElem b [] hlt).symm
      rw [hbr] at *
      exact getD_set_ne (b.getD r2 []) c c2 v none hc
    · rw [List.set_eq_of_length_le (by omega)]
  · rw [getD_set_ne b r r2 ((b.getD r []).set c v) [] hr]

lemma cellAt_setCell_self (b : Board) (r c : Nat) (v : Option PieceAttributes)
    (hwf : BoardWF b) (hr : r < 4) (hc : c < 4) :
    cellAt (setCell b r c v) r c = v := by
  have hlt : r < b.length := by rw [hwf.1]; exact hr
  have hrlen : (b.getD r []).length = 4 := by
    apply hwf.2
    rw [List.getD_eq_getElem b [] hlt]
    exact List.getElem_mem hlt
  unfold cellAt setCell
  rw [List.getD_eq_getElem?_getD (List.set b r ((b.getD r []).set c v)) r [],
    List.getElem?_set_self (by omega)]
  simp only [Option.getD_some]
  rw [List.getD_eq_getElem?_getD ((b.getD r []).set c v) c none,
    List.getElem?_set_self (by omega)]
  rfl

lemma boardWF_setCell (b : Board) (r c : Nat) (v : Option PieceAttributes)
    (hwf : BoardWF b) : BoardWF (setCell b r c v) := by
  constructor
  · unfold setCell
    rw [List.length_set]
    exact hwf.1
  · intro row hrow
    unfold setCell at hrow
    by_cases hlt : r < b.length
    · rcases List.mem_or_eq_of_mem_set hrow with hmem | heq
      · exact hwf.2 row hmem
      · rw [heq, List.length_set]
        apply hwf.2
        rw [List.getD_eq_getElem b [] hlt]
        exact List.getElem_mem hlt
    · rw [List.set_eq_of_length_le (by omega)] at hrow
      exact hwf.2 row hrow

lemma mem_getLegalMoves (s : GameState) (m : Move) (hm : m ∈ getLegalMoves s) :
    s.gameOver = false ∧
    ((∃ staged, s.stagedPiece = some staged ∧ ∃ r c, r < 4 ∧ c < 4 ∧
        cellAt s.board r c = none ∧ m.place = some (r, c) ∧
        ((∃ pc, pc ∈ s.availablePieces ∧ m.give = some pc) ∨
          (s.availablePieces = [] ∧ m.give = none))) ∨
      (s.stagedPiece = none ∧ m.place = none ∧
        ∃ pc, pc ∈ s.availablePieces ∧ m.give = some pc)) := by
  unfold getLegalMoves at hm
  by_cases hover : s.gameOver = true
  · rw [if_pos hover] at hm
    cases hm
  · rw [if_neg hover] at hm
    refine ⟨by simpa using hover, ?_⟩
    cases hst : s.stagedPiece with
    | none =>
      rw [hst] at hm
      right
      obtain ⟨pc, hpc, rfl⟩ := List.mem_map.mp hm
      exact ⟨rfl, rfl, pc, hpc, rfl⟩
    | some staged =>
      rw [hst] at hm
      left
      obtain ⟨r, hr, hm2⟩ := List.mem_flatMap.mp hm
      obtain ⟨c, hc, hm3⟩ := List.mem_flatMap.mp hm2
      rw [List.mem_range] at hr hc
      by_cases hcell : cellAt s.board r c = none
      · rw [if_pos hcell] at hm3
        by_cases hav : s.availablePieces.length > 0
        · rw [if_pos hav] at hm3
          obtain ⟨pc, hpc, rfl⟩ := List.mem_map.mp hm3
          exact ⟨staged, rfl, r, c, hr, hc, hcell, rfl, Or.inl ⟨pc, hpc, rfl⟩⟩
        · rw [if_neg hav] at hm3
          have hmeq : m = { place := some (r, c), give := none } := by simpa using hm3
          subst hmeq
          refine ⟨staged, rfl, r, c, hr, hc, hcell, rfl, Or.inr ⟨?_, rfl⟩⟩
          rw [← List.length_eq_zero]
          omega
      · rw [if_neg hcell] at hm3
        cases hm3

lemma applyMove_place (s : GameState) (m : Move) (r c : Nat) (staged : PieceAttributes)
    (hplace : m.place = some (r, c)) (hst : s.stagedPiece = some staged) :
    applyMove s m =
      (if checkWinCondition (setCell s.board r c (some staged)) then
        { s with
          board := setCell s.board r c (some staged)
          stagedPiece := none
          gameOver := true
          winner := some s.currentPlayer }
      else if isBoardFull (setCell s.board r c (some staged)) then
        { s with
          board := setCell s.board r c (some staged)
          stagedPiece := none
          gameOver := true
          winner := none }
      else
        match m.give with
        | some give =>
          { s with
            board := setCell s.board r c (some staged)
            stagedPiece := some give
            availablePieces := s.availablePieces.filter (fun piece =>
              !arePiecesEqual piece give)
            currentPlayer := otherPlayer s.currentPlayer }
        | none =>
          { s with
            board := setCell s.board r c (some staged)
            stagedPiece := none }) := by
  unfold applyMove
  rw [hplace, hst]

lemma applyMove_first (s : GameState) (m : Move) (pc : PieceAttributes)
    (hplace : m.place = none) (hst : s.stagedPiece = none) (hgive : m.give = some pc) :
    applyMove s m =
      { s with
        stagedPiece := some pc
        availablePieces := s.availablePieces.filter (fun piece =>
          !arePiecesEqual piece pc)
        currentPlayer := otherPlayer s.currentPlayer } := by
  unfold applyMove
  rw [hplace, hst, hgive]

lemma perm_inventory_end (bp2 bp av : List PieceAttributes) (staged : PieceAttributes)
    (h : bp2.Perm (staged :: bp)) :
    (bp2 ++ av ++ ([] : List PieceAttributes)).Perm (bp ++ av ++ [staged]) := by
  rw [List.append_nil]
  refine (h.append_right av).trans ?step2
  show (staged :: (bp ++ av)).Perm ((bp ++ av) ++ [staged])
  exact (List.perm_append_singleton staged (bp ++ av)).symm

lemma perm_inventory_give (bp2 bp av av2 : List PieceAttributes)
    (staged g : PieceAttributes) (hb : bp2.Perm (staged :: bp)) (hav : av.Perm (g :: av2)) :
    (bp2 ++ av2 ++ [g]).Perm (bp ++ av ++ [staged]) := by
  refine (List.perm_append_singleton g (bp2 ++ av2)).trans ?s1
  refine (((hb.append_right av2).cons g)).trans ?s2
  show (g :: ((staged :: bp) ++ av2)).Perm ((bp ++ av) ++ [staged])
  refine (List.Perm.swap staged g ((bp ++ av2))).trans ?s3
  refine ((((List.perm_middle).symm.trans ((hav.symm).append_left bp))).cons staged).trans ?s4
  show (staged :: (bp ++ av)).Perm ((bp ++ av) ++ [staged])
  exact (List.perm_append_singleton staged (bp ++ av)).symm

lemma perm_inventory_first (bp av av2 : List PieceAttributes) (g : PieceAttributes)
    (hav : av.Perm (g :: av2)) :
    (bp ++ av2 ++ [g]).Perm (bp ++ av ++ ([] : List PieceAttributes)) := by
  rw [List.append_nil]
  refine (List.perm_append_singleton g (bp ++ av2)).trans ?s1
  exact (List.perm_middle).symm.trans ((hav.symm).append_left bp)

lemma applyMove_preserves_invariants (s : GameState) (m : Move)
    (hs : StateInv s) (hm : m ∈ getLegalMoves s) :
    StateInv (applyMove s m) ∧
    (∀ r c p, cellAt s.board r c = some p → cellAt (applyMove s m).board r c = some p) ∧
    ((applyMove s m).gameOver = false →
      (applyMove s m).currentPlayer = otherPlayer s.currentPlayer) := by
  obtain ⟨hwf, hnd, hlen, hterm⟩ := hs
  obtain ⟨hover, hshape⟩ := mem_getLegalMoves s m hm
  rcases hshape with ⟨staged, hst, r, c, hr, hc, hcell, hplace, hgive⟩ |
    ⟨hst, hplace, pc, hpc, hgive⟩
  · have hinvS : inventory s = boardPieces s.board ++ s.availablePieces ++ [staged] := by
      unfold inventory
      rw [hst]
      rfl
    have hndav : s.availablePieces.Nodup := by
      have h2 := hnd
      rw [hinvS] at h2
      exact h2.of_append_left.of_append_right
    have hbp := boardPieces_setCell_perm s.board r c staged hwf hr hc hcell
    have hwf2 := boardWF_setCell s.board r c (some staged) hwf
    have hcellpres : ∀ r2 c2 p, cellAt s.board r2 c2 = some p →
        cellAt (setCell s.board r c (some staged)) r2 c2 = some p := by
      intro r2 c2 p hp
      rcases Decidable.em (r2 = r ∧ c2 = c) with heq | hne
      · exfalso
        obtain ⟨rfl, rfl⟩ := heq
        rw [hcell] at hp
        cases hp
      · rw [cellAt_setCell_ne s.board r c r2 c2 (some staged) hne]
        exact hp
    rw [applyMove_place s m r c staged hplace hst]
    by_cases hwin : checkWinCondition (setCell s.board r c (some staged)) = true
    · rw [if_pos hwin]
      have hP : (boardPieces (setCell s.board r c (some staged)) ++ s.availablePieces ++
          ([] : List PieceAttributes)).Perm (inventory s) := by
        rw [hinvS]
        exact perm_inventory_end _ _ _ staged hbp
      refine ⟨⟨hwf2, ?_, ?_, ?_⟩, ?_, ?_⟩
      · exact hP.nodup_iff.mpr hnd
      · exact hP.length_eq.trans hlen
      · show (true : Bool) = (checkWinCondition (setCell s.board r c (some staged)) ||
          isBoardFull (setCell s.board r c (some staged)))
        rw [hwin]
        exact (Bool.true_or _).symm
      · exact hcellpres
      · intro h
        exact Bool.noConfusion (show (true : Bool) = false from h)
    · by_cases hfull : isBoardFull (setCell s.board r c (some staged)) = true
      · rw [if_neg hwin, if_pos hfull]
        have hP : (boardPieces (setCell s.board r c (some staged)) ++ s.availablePieces ++
            ([] : List PieceAttributes)).Perm (inventory s) := by
          rw [hinvS]
          exact perm_inventory_end _ _ _ staged hbp
        have hwin2 : checkWinCondition (setCell s.board r c (some staged)) = false := by
          cases hcw : checkWinCondition (setCell s.board r c (some staged)) with
          | true => exact absurd hcw hwin
          | false => rfl
        refine ⟨⟨hwf2, ?_, ?_, ?_⟩, ?_, ?_⟩
        · exact hP.nodup_iff.mpr hnd
        · exact hP.length_eq.trans hlen
        · show (true : Bool) = (checkWinCondition (setCell s.board r c (some staged)) ||
            isBoardFull (setCell s.board r c (some staged)))
          rw [hwin2, hfull]
          decide
        · exact hcellpres
        · intro h
          exact Bool.noConfusion (show (true : Bool) = false from h)
      · rw [if_neg hwin, if_neg hfull]
        have hwin2 : checkWinCondition (setCell s.board r c (some staged)) = false := by
          cases hcw : checkWinCondition (setCell s.board r c (some staged)) with
          | true => exact absurd hcw hwin
          | false => rfl
        have hfull2 : isBoardFull (setCell s.board r c (some staged)) = false := by
          cases hcw : isBoardFull (setCell s.board r c (some staged)) with
          | true => exact absurd hcw hfull
          | false => rfl
        rcases hgive with ⟨pc, hpc, hg⟩ | ⟨hav0, hg⟩
        · rw [hg]
          simp only []
          have hfilter := filter_not_arePiecesEqual s.availablePieces pc
          have hav := cons_filter_ne_perm s.availablePieces pc hndav hpc
          rw [← hfilter] at hav
          have hP : (boardPieces (setCell s.board r c (some staged)) ++
              s.availablePieces.filter (fun piece => !arePiecesEqual piece pc) ++
              [pc]).Perm (inventory s) := by
            rw [hinvS]
            exact perm_inventory_give _ _ _ _ staged pc hbp hav
          refine ⟨⟨hwf2, ?_, ?_, ?_⟩, ?_, ?_⟩
          · exact hP.nodup_iff.mpr hnd
          · exact hP.length_eq.trans hlen
          · show s.gameOver = (checkWinCondition (setCell s.board r c (some staged)) ||
              isBoardFull (setCell s.board r c (some staged)))
            rw [hover, hwin2, hfull2]
            decide
          · exact hcellpres
          · intro _
            trivial
        · exfalso
          have hl : (boardPieces s.board).length + s.availablePieces.length + 1 = 16 := by
            have h2 := hlen
            rw [hinvS] at h2
            simp only [List.length_append, List.length_cons, List.length_nil,
              List.length_singleton] at h2
            omega
          have hl15 : (boardPieces s.board).length = 15 := by
            rw [hav0] at hl
            simp at hl
            omega
          have hl16 : (boardPieces (setCell s.board r c (some staged))).length = 16 := by
            rw [hbp.length_eq]
            simp [hl15]
          exact hfull (isBoardFull_of_sixteen _ hwf2 hl16)
  · have hinvS : inventory s = boardPieces s.board ++ s.availablePieces ++
        ([] : List PieceAttributes) := by
      unfold inventory
      rw [hst]
      rfl
    have hndav : s.availablePieces.Nodup := by
      have h2 := hnd
      rw [hinvS] at h2
      exact h2.of_append_left.of_append_right
    rw [applyMove_first s m pc hplace hst hgive]
    have hfilter := filter_not_arePiecesEqual s.availablePieces pc
    have hav := cons_filter_ne_perm s.availablePieces pc hndav hpc
    rw [← hfilter] at hav
    have hP : (boardPieces s.board ++ s.availablePieces.filter
        (fun piece => !arePiecesEqual piece pc) ++ [pc]).Perm (inventory s) := by
      rw [hinvS]
      exact perm_inventory_first _ _ _ pc hav
    refine ⟨⟨hwf, ?_, ?_, ?_⟩, ?_, ?_⟩
    · exact hP.nodup_iff.mpr hnd
    · exact hP.length_eq.trans hlen
    · show s.gameOver = (checkWinCondition s.board || isBoardFull s.board)
      exact hterm
    · intro r2 c2 p hp
      exact hp
    · intro _
      rfl

lemma validRng_rngZero : ValidRng rngZero := by
  intro i
  constructor <;> norm_num [rngZero]

lemma makeAIPlacement_nonEasy_takes_win (input : AIInput) (rng : Nat → ℚ) (k : Nat)
    (piece : PieceAttributes) (hpp : input.pieceToPlace = some piece)
    (hne : ¬ input.difficulty = .easy) (pos : BoardPosition)
    (hfind : (getEmptyPositions input.board).find? (fun position =>
      checkWinCondition (setCell input.board position.1 position.2 (some piece))) = some pos) :
    makeAIPlacement input rng k = (some pos, k) := by
  have hlen : ¬ (getEmptyPositions input.board).length = 0 := by
    intro h0
    rw [List.length_eq_zero] at h0
    rw [h0] at hfind
    cases hfind
  unfold makeAIPlacement
  rw [hpp]
  simp only [if_neg hlen, if_neg hne, hfind]
  rfl

/-- `maxIterations = 1` variant of the search configuration, for the C2
scenario. -/
noncomputable def cfgC2 : MCTSConfig := { cfgC1 with maxIterations := 1 }

/-- The opening position: empty board, all sixteen pieces available, nothing
staged. -/
def s0C3 : GameState :=
  { board := [[none, none, none, none], [none, none, none, none],
      [none, none, none, none], [none, none, none, none]],
    availablePieces := generateAllPieces, stagedPiece := none,
    currentPlayer := .one, gameOver := false, winner := none }

/-- The give-only first move of the C3 witness. -/
def mv0C3 : Move := { place := none, give := some pieceT1 }

/-- Heuristic-AI input with an immediate winning placement for the staged
piece and a non-empty available set, at normal difficulty. -/
def inputC5 : AIInput :=
  { board := boardR1, pieceToPlace := some pieceB, availablePieces := [pieceA],
    difficulty := .normal }

/-- The same winning position at hard difficulty. -/
def inputC6 : AIInput :=
  { board := boardR1, pieceToPlace := some pieceB, availablePieces := [pieceA],
    difficulty := .hard }

/-- A random stream drawing 0.99 forever: high enough to trigger any of the
probabilistic branches the spec attributes to hard difficulty. -/
def rngHigh : Nat → ℚ := fun _ => 99 / 100

/-- Piece-selection input for the C7 witness. -/
def inputC7 : AIInput :=
  { board := boardR1, pieceToPlace := none, availablePieces := [pieceA, pieceB],
    difficulty := .normal }

/-- C1 (amended): `MCTSSearch.simulate` scores the playout from the
perspective of the `currentPlayer` of the state it is called on — the owner
of the simulated node's position, not of the root's: the result is 1 exactly
when that player wins the playout, 1/2 exactly when the playout ends in a
tie or is cut off non-terminal, 0 exactly when the opponent wins; and a
successful search iteration adds the propagated playout value to the
visited node: one visit and `r` wins. -/
theorem c1_simulate_node_player_scoring (config : MCTSConfig) (rng : Nat → ℚ) (k : Nat)
    (s : GameState) (fuel : Nat) (n : Node) (depth k0 : Nat) (n2 : Node) (r : ℚ) (k2 : Nat)
    (h : searchIterate config rng fuel n depth k0 = .ok (n2, r, k2)) :
    ((MCTSSearch.simulate config rng k s).1 = 1 ↔
      (MCTSSearch.playout config rng s k).1.winner = some s.currentPlayer) ∧
    ((MCTSSearch.simulate config rng k s).1 = 1 / 2 ↔
      (MCTSSearch.playout config rng s k).1.winner = none) ∧
    ((MCTSSearch.simulate config rng k s).1 = 0 ↔
      (MCTSSearch.playout config rng s k).1.winner = some (otherPlayer s.currentPlayer)) ∧
    n2.visits = n.visits + 1 ∧ n2.wins = n.wins + r :=
  ⟨(simulate_cases config rng k s).1, (simulate_cases config rng k s).2.1,
   (simulate_cases config rng k s).2.2.1,
   searchIterate_bump config rng fuel n depth k0 n2 r k2 h⟩

theorem c1_simulate_node_player_scoring_witness :
    ((MCTSSearch.simulate cfgC1 rngZero 2 stateC1).1 = 1 ↔
      (MCTSSearch.playout cfgC1 rngZero stateC1 2).1.winner = some stateC1.currentPlayer) ∧
    ((MCTSSearch.simulate cfgC1 rngZero 2 stateC1).1 = 1 / 2 ↔
      (MCTSSearch.playout cfgC1 rngZero stateC1 2).1.winner = none) ∧
    ((MCTSSearch.simulate cfgC1 rngZero 2 stateC1).1 = 0 ↔
      (MCTSSearch.playout cfgC1 rngZero stateC1 2).1.winner =
        some (otherPlayer stateC1.currentPlayer)) ∧
    root1.visits = root0.visits + 1 ∧ root1.wins = root0.wins + 1 / 2 :=
  c1_simulate_node_player_scoring cfgC1 rngZero 2 stateC1 (cfgC1.maxDepth + 1) root0 0 0
    root1 (1 / 2) 2 (iterate1_R1 cfgC1.maxDepth)

/-- C2 (amended): with `maxIterations = 1` and a non-terminal root that has
legal moves, the root node ends with exactly 1 visit and ZERO expanded
children (expansion requires a prior visit), and the final best-child
reduction then fails over the empty children array. -/
theorem c2_one_iteration_root (config : MCTSConfig) (rng : Nat → ℚ) (s : GameState)
    (h1 : config.maxIterations = 1) (h3 : getLegalMoves s ≠ []) :
    MCTSSearch.searchRoot config rng s =
      .ok ((Node.new s none).bump (MCTSSearch.simulate config rng 0 s).1,
        (MCTSSearch.simulate config rng 0 s).2) ∧
    ((Node.new s none).bump (MCTSSearch.simulate config rng 0 s).1).visits = 1 ∧
    ((Node.new s none).bump (MCTSSearch.simulate config rng 0 s).1).children = [] ∧
    MCTSSearch.search config rng s =
      .error "Reduce of empty array with no initial value" :=
  searchRoot_maxIter_one config rng s h1 h3

theorem c2_one_iteration_root_witness :
    cfgC2.maxIterations = 1 ∧ getLegalMoves stateR1 ≠ [] ∧
    ((Node.new stateR1 none).bump (MCTSSearch.simulate cfgC2 rngZero 0 stateR1).1).visits = 1 ∧
    ((Node.new stateR1 none).bump (MCTSSearch.simulate cfgC2 rngZero 0 stateR1).1).children = [] :=
  ⟨rfl, by decide, (c2_one_iteration_root cfgC2 rngZero stateR1 rfl (by decide)).2.1,
    (c2_one_iteration_root cfgC2 rngZero stateR1 rfl (by decide)).2.2.1⟩

/-- C2 (counterexample): from the non-terminal root `stateR1`, which has
legal moves, one search iteration leaves the root with 1 visit and ZERO
children — not the one expanded child the claim asserts — and `search`
throws instead of returning a move. -/
theorem c2_one_iteration_zero_children_ce :
    stateR1.gameOver = false ∧ getLegalMoves stateR1 ≠ [] ∧
    (MCTSSearch.searchRoot cfgC2 rngZero stateR1).toOption.map
      (fun rk => (rk.1.visits, rk.1.children.length)) = some (1, 0) ∧
    MCTSSearch.search cfgC2 rngZero stateR1 =
      .error "Reduce of empty array with no initial value" := by
  obtain ⟨hroot, hv, hch, herr⟩ := searchRoot_maxIter_one cfgC2 rngZero stateR1 rfl (by decide)
  refine ⟨rfl, by decide, ?_, herr⟩
  rw [hroot]
  show some
      (((Node.new stateR1 none).bump (MCTSSearch.simulate cfgC2 rngZero 0 stateR1).1).visits,
       ((Node.new stateR1 none).bump
         (MCTSSearch.simulate cfgC2 rngZero 0 stateR1).1).children.length) = some (1, 0)
  rw [hv, hch]
  rfl

/-- C3: applying any legal move to a state satisfying the data-model
invariants yields a state satisfying them again: the board stays a 4×4
grid, no piece is duplicated or lost (the board/available/staged inventory
stays duplicate-free with all 16 pieces accounted for), the terminal flag
holds exactly when a win line exists or the board is full, every occupied
cell keeps its piece, and when the game continues the turn has alternated
exactly once. -/
theorem c3_applyMove_preserves_invariants (s : GameState) (m : Move)
    (hs : StateInv s) (hm : m ∈ getLegalMoves s) :
    StateInv (applyMove s m) ∧
    (∀ r c p, cellAt s.board r c = some p → cellAt (applyMove s m).board r c = some p) ∧
    ((applyMove s m).gameOver = false →
      (applyMove s m).currentPlayer = otherPlayer s.currentPlayer) :=
  applyMove_preserves_invariants s m hs hm

theorem c3_applyMove_preserves_invariants_witness :
    StateInv s0C3 ∧ mv0C3 ∈ getLegalMoves s0C3 ∧
    (StateInv (applyMove s0C3 mv0C3) ∧
      (∀ r c p, cellAt s0C3.board r c = some p →
        cellAt (applyMove s0C3 mv0C3).board r c = some p) ∧
      ((applyMove s0C3 mv0C3).gameOver = false →
        (applyMove s0C3 mv0C3).currentPlayer = otherPlayer s0C3.currentPlayer)) :=
  ⟨by decide, by decide, c3_applyMove_preserves_invariants s0C3 mv0C3 (by decide) (by decide)⟩

/-- C4: on a well-formed 4×4 board, `checkWinCondition` returns true exactly
when one of the 10 lines (4 rows, 4 columns, the two diagonals) has all
four cells occupied by pieces sharing at least one of the four attributes;
on every other such board it returns false. -/
theorem c4_checkWin_iff_ten_lines (board : Board) (hwf : BoardWF board) :
    checkWinCondition board = true ↔ specWin board :=
  checkWin_iff_spec board hwf

theorem c4_checkWin_iff_ten_lines_witness :
    BoardWF boardR1 ∧ (checkWinCondition boardR1 = true ↔ specWin boardR1) :=
  ⟨by decide, c4_checkWin_iff_ten_lines boardR1 (by decide)⟩

/-- C5 (amended): the move returned by `makeAIMove` has `pieceToGive = none`
exactly when no pieces remain in the available set OR the chosen placement
is an immediate win for the piece to place (the source also skips piece
selection after a winning placement). -/
theorem c5_give_none_iff (input : AIInput) (rng : Nat → ℚ) (k : Nat)
    (hrng : ValidRng rng) :
    ((makeAIMove input rng k).1.pieceToGive = none ↔
      (input.availablePieces = [] ∨
        ∃ position piece, (makeAIMove input rng k).1.placement = some position ∧
          input.pieceToPlace = some piece ∧
          checkWinCondition (setCell input.board position.1 position.2 (some piece)) = true)) :=
  makeAIMove_give_none_iff input rng k hrng

theorem c5_give_none_iff_witness :
    ValidRng rngZero ∧
    ((makeAIMove inputC5 rngZero 0).1.pieceToGive = none ↔
      (inputC5.availablePieces = [] ∨
        ∃ position piece, (makeAIMove inputC5 rngZero 0).1.placement = some position ∧
          inputC5.pieceToPlace = some piece ∧
          checkWinCondition (setCell inputC5.board position.1 position.2 (some piece)) = true)) :=
  ⟨validRng_rngZero, c5_give_none_iff inputC5 rngZero 0 validRng_rngZero⟩

/-- C5 (counterexample): on `inputC5` the available set is non-empty, yet
`makeAIMove` returns `pieceToGive = none` — the placement at (0, 3)
completes row 0, and a winning placement skips piece selection. -/
theorem c5_winning_placement_gives_none_ce :
    inputC5.availablePieces ≠ [] ∧
    (makeAIMove inputC5 rngZero 0).1 =
      { placement := some (0, 3), pieceToGive := none } := by
  constructor
  · decide
  · rfl

/-- C6 (amended): for every difficulty other than easy — hard included — the
placement decision never skips win-detection and `getRandomChance` for hard
is exactly 0 (not the 5–10% random / 1% miss calibration the spec gives):
whenever the staged piece has an immediate winning cell, `makeAIPlacement`
returns the first such cell in scan order for EVERY random source, consuming
no random draw. -/
theorem c6_hard_always_takes_win (input : AIInput) (rng : Nat → ℚ) (k : Nat)
    (piece : PieceAttributes) (pos : BoardPosition)
    (hpp : input.pieceToPlace = some piece) (hne : ¬ input.difficulty = .easy)
    (hfind : (getEmptyPositions input.board).find? (fun position =>
      checkWinCondition (setCell input.board position.1 position.2 (some piece))) = some pos) :
    getRandomChance Difficulty.hard = 0 ∧
    makeAIPlacement input rng k = (some pos, k) :=
  ⟨rfl, makeAIPlacement_nonEasy_takes_win input rng k piece hpp hne pos hfind⟩

theorem c6_hard_always_takes_win_witness :
    inputC6.difficulty ≠ Difficulty.easy ∧
    getRandomChance Difficulty.hard = 0 ∧
    makeAIPlacement inputC6 rngHigh 7 = (some (0, 3), 7) :=
  ⟨by decide, c6_hard_always_takes_win inputC6 rngHigh 7 pieceB (0, 3) rfl (by decide)
    (by decide)⟩

/-- C6 (counterexample): the hard-difficulty random-placement probability in
the source is exactly 0 — not the claimed 5–10% — and a hard placement
takes the available immediate win both on the all-0.99 stream (which would
trigger every probabilistic branch) and on the all-zero stream: the
miss-win draw the claim requires does not exist in the code, whose win-skip
branch is gated on easy difficulty. -/
theorem c6_hard_chance_zero_ce :
    getRandomChance Difficulty.hard = 0 ∧
    makeAIPlacement inputC6 rngHigh 0 = (some (0, 3), 0) ∧
    makeAIPlacement inputC6 rngZero 0 = (some (0, 3), 0) :=
  ⟨rfl, rfl, rfl⟩

/-- C7: with a non-empty available set, `makeAIPieceSelection` always
returns some piece of the available set (never an error); when the random
branch is not taken and the safe subset (pieces completing no winning line
on any empty cell) is non-empty, the piece belongs to that safe subset —
when every piece is dangerous the result is still drawn from the full
available set. -/
theorem c7_piece_selection_total (input : AIInput) (rng : Nat → ℚ) (k : Nat)
    (hrng : ValidRng rng) (hne : input.availablePieces ≠ []) :
    ∃ p, (makeAIPieceSelection input rng k).1 = some p ∧ p ∈ input.availablePieces ∧
      (¬ rng k < getRandomChance input.difficulty →
        input.availablePieces.filter (fun piece => !canPieceLeadToWin piece input.board) ≠ [] →
          p ∈ input.availablePieces.filter (fun piece => !canPieceLeadToWin piece input.board)) :=
  makeAIPieceSelection_spec input rng k hrng hne

theorem c7_piece_selection_total_witness :
    inputC7.availablePieces ≠ [] ∧
    ∃ p, (makeAIPieceSelection inputC7 rngZero 0).1 = some p ∧ p ∈ inputC7.availablePieces ∧
      (¬ rngZero 0 < getRandomChance inputC7.difficulty →
        inputC7.availablePieces.filter (fun piece => !canPieceLeadToWin piece inputC7.board) ≠ [] →
          p ∈ inputC7.availablePieces.filter (fun piece => !canPieceLeadToWin piece inputC7.board)) :=
  ⟨by decide, c7_piece_selection_total inputC7 rngZero 0 validRng_rngZero (by decide)⟩

/-- C8: `Node.expand` fails with the loud error exactly when the node's
untried-move list is empty, and no run of `MCTSSearch.search` — any
configuration, any random source, any root state — ever surfaces that
error: under the guard, the expand failure branch is unreachable. -/
theorem c8_expand_fails_loudly_unreachable (n : Node) (config : MCTSConfig)
    (rng : Nat → ℚ) (s : GameState) :
    (n.expand = .error "Cannot expand fully expanded node" ↔ n.untriedMoves = []) ∧
    MCTSSearch.search config rng s ≠ .error "Cannot expand fully expanded node" :=
  ⟨expand_error_iff n, search_ne_expandError config rng s⟩

theorem c8_expand_fails_loudly_unreachable_witness :
    ((Node.new stateD none).expand = .error "Cannot expand fully expanded node" ↔
      (Node.new stateD none).untriedMoves = []) ∧
    MCTSSearch.search cfgC1 rngZero stateR1 ≠ .error "Cannot expand fully expanded node" :=
  c8_expand_fails_loudly_unreachable (Node.new stateD none) cfgC1 rngZero stateR1

/-- C9: `getWinningLine` is some exactly when `checkWinCondition` is true,
and it equals the first of the 10 specification lines that wins, scanned
rows 0–3, then columns 0–3, then the main diagonal, then the
anti-diagonal. -/
theorem c9_winning_line_first_match (board : Board) (hwf : BoardWF board) :
    (getWinningLine board).isSome = checkWinCondition board ∧
    getWinningLine board =
      specLines.find? (fun line => decide (specLineWin board line)) :=
  ⟨getWinningLine_isSome_eq board hwf, getWinningLine_eq_find board hwf⟩

theorem c9_winning_line_first_match_witness :
    BoardWF boardR1 ∧
    ((getWinningLine boardR1).isSome = checkWinCondition boardR1 ∧
      getWinningLine boardR1 =
        specLines.find? (fun line => decide (specLineWin boardR1 line))) :=
  ⟨by decide, c9_winning_line_first_match boardR1 (by decide)⟩

/-- C10: a terminal root enumerates no legal moves and `search` on it
reduces the best-child selection over an empty children list, throwing the
JavaScript reduce error instead of returning a move; the same error results
from any run whose root ends with no expanded children. -/
theorem c10_search_empty_children_throws (config : MCTSConfig) (rng : Nat → ℚ)
    (s : GameState) :
    (s.gameOver = true → getLegalMoves s = []) ∧
    (s.gameOver = true →
      MCTSSearch.search config rng s =
        .error "Reduce of empty array with no initial value") ∧
    (∀ root k, MCTSSearch.searchRoot config rng s = .ok (root, k) → root.children = [] →
      MCTSSearch.search config rng s =
        .error "Reduce of empty array with no initial value") :=
  ⟨fun h => by unfold getLegalMoves; rw [h]; rfl,
   fun h => search_terminal_root_error config rng s h,
   fun root k h hch => search_empty_children_error config rng s root k h hch⟩

theorem c10_search_empty_children_throws_witness :
    stateD.gameOver = true ∧ getLegalMoves stateD = [] ∧
    MCTSSearch.search cfgC1 rngZero stateD =
      .error "Reduce of empty array with no initial value" :=
  ⟨by decide, (c10_search_empty_children_throws cfgC1 rngZero stateD).1 (by decide),
   (c10_search_empty_children_throws cfgC1 rngZero stateD).2.1 (by decide)⟩
